import Mathlib

/-!
Verification development for the pyBEEP REST API (job/slot orchestration and
storage synchronization tier).

The Python sources under `rest_api/` are shallowly embedded here:

* pure helper functions become Lean functions over `ℚ` (Python floats are
  modelled exactly by rationals; `datetime` arithmetic is exact, and ISO
  timestamps are modelled by their parsed time value);
* the process-wide mutable registries (`JOBS`, `SLOT_RUNS`, `JOB_META`,
  `CANCEL_FLAGS`, `RUN_DIRECTORIES`, ...) become explicit state records over
  association lists with Python `dict` semantics;
* request handlers become state-transition functions returning the new state
  together with an `Except`-style outcome mirroring raised `HTTPException`s;
* filesystem and thread effects are recorded as explicit events or oracle
  parameters where a claim depends on them.
-/

namespace PyBeep

/-! ### Python dict model

Python dictionaries keyed by strings, as association lists.  `dinsert`
overwrites in place (Python assignment), `derase` removes the key
(`del` / `.pop`), `dlookup` is `.get`, `dcontains` is the `in` operator. -/

abbrev PyDict (α : Type) := List (String × α)

def dlookup {α : Type} (d : PyDict α) (k : String) : Option α :=
  (d.find? (fun p => p.1 == k)).map (·.2)

def dcontains {α : Type} (d : PyDict α) (k : String) : Bool :=
  (d.find? (fun p => p.1 == k)).isSome

def dinsert {α : Type} (d : PyDict α) (k : String) (v : α) : PyDict α :=
  match d with
  | [] => [(k, v)]
  | (k', v') :: rest => if k' == k then (k, v) :: rest else (k', v') :: dinsert rest k v

def derase {α : Type} (d : PyDict α) (k : String) : PyDict α :=
  d.filter (fun p => !(p.1 == k))

/-! ### Python numeric helpers -/

/-- Python `str.upper()` (structural, so that the kernel can evaluate it;
all mode names in the source are ASCII). -/
def pyToUpper (s : String) : String := ⟨s.data.map Char.toUpper⟩

/-- Python `str.lower()` (structural; all status strings are ASCII). -/
def pyToLower (s : String) : String := ⟨s.data.map Char.toLower⟩

/-- Python `round()` on an exact rational value: round half to even. -/
def pythonRound (q : ℚ) : ℤ :=
  if q - (Int.floor q : ℚ) < 1/2 then Int.floor q
  else if 1/2 < q - (Int.floor q : ℚ) then Int.floor q + 1
  else if Int.floor q % 2 = 0 then Int.floor q else Int.floor q + 1

/-- Ordered insertion into a sorted string list (structural, so that the
kernel can evaluate it). -/
def pyStrInsert (x : String) : List String → List String
  | [] => [x]
  | y :: ys => if decide (x ≤ y) then x :: y :: ys else y :: pyStrInsert x ys

/-- Python `sorted()` on strings (lexicographic insertion sort; Python
`sorted` is stable, and on a total order of strings stability does not
change the resulting list). -/
def pySorted (l : List String) : List String :=
  l.foldr pyStrInsert []

/-! ### progress_utils.py

Embedding of `rest_api/progress_utils.py`.  Parameter dictionaries are
modelled as `PyDict PyVal` where `PyVal` covers the numeric and list payloads
the duration estimator inspects.  The `EIS` branch computes logarithmically
spaced frequencies (`math.log10` / `10 ** x`), which has no exact rational
embedding; no claim concerns `EIS`, and the embedded function covers the
remaining modes. -/

inductive PyVal : Type where
  | num (q : ℚ)
  | list (xs : List ℚ)
  deriving DecidableEq, Repr

/-- Embeds `_as_float`: `float(x)` for a present numeric value, `None` for a
missing key or a non-numeric value (a `TypeError` inside `float()` is caught
and turned into `None`; `ℚ` has no NaN or infinity). -/
def asFloat : Option PyVal → Option ℚ
  | some (.num q) => some q
  | _ => none

/-- Embeds `_as_positive_float`. -/
def asPositiveFloat (v : Option PyVal) : Option ℚ :=
  match asFloat v with
  | none => none
  | some q => if q ≤ 0 then none else some q

/-- Embeds `_as_positive_int` (`int()` truncates toward zero; the argument is
already strictly positive, so truncation is `Int.floor`). -/
def asPositiveInt (v : Option PyVal) : Option ℤ :=
  match asPositiveFloat v with
  | none => none
  | some q =>
    let n : ℤ := Int.floor q
    if n ≤ 0 then none else some n

/-- Embeds `estimate_planned_duration` for the closed-form rational modes
(`CV`, `CA`, `CP`, `OCP`, `LSV`, `PSTEP`, `GS`, `GCV`, `STEPSEQ`, `DC`).
Unknown modes return `none`, as in the source. -/
def estimatePlannedDuration (mode : String) (params : PyDict PyVal) : Option ℚ :=
  if mode = "" ∨ params = [] then none
  else
    let modeKey := pyToUpper mode
    let setup : ℚ := 1
    if modeKey = "CV" then
      match asPositiveFloat (dlookup params ("scan_rate")),
            asPositiveFloat (dlookup params ("cycles")),
            asFloat (dlookup params ("start")),
            asFloat (dlookup params ("vertex1")),
            asFloat (dlookup params ("vertex2")),
            asFloat (dlookup params ("end")) with
      | some scanRate, some cycles, some start, some vertex1, some vertex2, some endV =>
        let sweep := |vertex1 - start| + |vertex2 - vertex1| + |endV - vertex2|
        if sweep ≤ 0 then none
        else some (sweep / scanRate * max cycles 1 + setup)
      | _, _, _, _, _, _ => none
    else if modeKey = "CA" ∨ modeKey = "CP" ∨ modeKey = "OCP" then
      match asPositiveFloat (dlookup params ("duration")) with
      | none => none
      | some duration => some (duration + setup)
    else if modeKey = "LSV" then
      match asFloat (dlookup params ("start")), asFloat (dlookup params ("end")),
            asPositiveFloat (dlookup params ("scan_rate")) with
      | some start, some endV, some scanRate => some (|endV - start| / scanRate + setup)
      | _, _, _ => none
    else if modeKey = "PSTEP" then
      match dlookup params ("potentials"), asPositiveFloat (dlookup params ("step_duration")) with
      | some (.list potentials), some stepDuration =>
        let steps := potentials.length
        if steps ≤ 0 then none else some ((steps : ℚ) * stepDuration + setup)
      | _, _ => none
    else if modeKey = "GS" then
      match asPositiveInt (dlookup params ("num_steps")),
            asPositiveFloat (dlookup params ("step_duration")) with
      | some numSteps, some stepDuration => some ((numSteps : ℚ) * stepDuration + setup)
      | _, _ => none
    else if modeKey = "GCV" then
      match asPositiveInt (dlookup params ("num_steps")),
            asPositiveFloat (dlookup params ("step_duration")),
            asPositiveInt (dlookup params ("cycles")) with
      | some numSteps, some stepDuration, some cycles =>
        some ((numSteps : ℚ) * stepDuration * (max cycles 1 : ℤ) + setup)
      | _, _, _ => none
    else if modeKey = "STEPSEQ" then
      match dlookup params ("currents"), asPositiveFloat (dlookup params ("step_duration")) with
      | some (.list currents), some stepDuration =>
        let steps := currents.length
        if steps ≤ 0 then none else some ((steps : ℚ) * stepDuration + setup)
      | _, _ => none
    else if modeKey = "DC" then
      match asPositiveFloat (dlookup params ("duration_s")) with
      | none => none
      | some duration => some (duration + setup)
    else none

/-- A slot entry as `compute_progress` receives it (`slot.model_dump()`):
the status string and the parsed start timestamp.  `parse_iso` is modelled as
the identity on already-parsed rational time values (`none` covers both a
missing timestamp and an unparseable one). -/
structure SlotSnap : Type where
  status : String
  startedAt : Option ℚ
  deriving DecidableEq, Repr

/-- The per-slot body of the loop in `compute_progress`: the progress
contribution appended to `slot_progress` and the optional entry appended to
`remaining_candidates`. -/
def slotProgressEntry (startedFallback : Option ℚ) (planned : Option ℚ) (now : ℚ)
    (slot : SlotSnap) : ℤ × Option ℤ :=
  let st := pyToLower slot.status
  if st = "done" ∨ st = "failed" then (100, some 0)
  else if st = "queued" then (0, none)
  else if st = "running" then
    match slot.startedAt.orElse (fun _ => startedFallback), planned with
    | some started, some p =>
      if 0 < p then
        let elapsed := max (now - started) 0
        let pct := pythonRound (min 1 (elapsed / p) * 100)
        let pct := if 100 ≤ pct then 99 else pct
        (max 0 pct, some (max (Int.ceil (p - elapsed)) 0))
      else (0, none)
    | _, _ => (0, none)
  else (0, none)

/-- Embeds `compute_progress`: returns `(progress_pct, remaining_s)`. -/
def computeProgress (status : String) (slots : List SlotSnap) (startedAt : Option ℚ)
    (planned : Option ℚ) (now : ℚ) : ℤ × Option ℤ :=
  let statusNorm := pyToLower status
  if statusNorm = "done" ∨ statusNorm = "failed" then (100, some 0)
  else
    let entries := slots.map (slotProgressEntry startedAt planned now)
    let slotProgress := entries.map (·.1)
    let remainingCandidates := (entries.map (·.2)).filterMap id
    if slotProgress = [] then (0, none)
    else
      let avg := pythonRound ((slotProgress.sum : ℚ) / (slotProgress.length : ℚ))
      let avg := if statusNorm = "running" ∧ slots.any (fun s => pyToLower s.status == "running")
        then min avg 99 else avg
      let remaining := if statusNorm = "running" then remainingCandidates.max? else none
      (avg, remaining)

/-! ### storage.py: path-segment sanitization

Embedding of `sanitize_path_segment`, `sanitize_optional_segment` and
`sanitize_client_datetime`.  Python regex substitution with the patterns
`[^0-9A-Za-z_-]+`, `_+`, `-+`, `-{2,}` and `_{2,}` replaces every maximal
run of matching characters by one replacement character; `subRuns` implements
exactly that (the `inRun` flag tracks whether the previous character was part
of the current rejected run). -/

/-- ASCII whitespace stripped by Python `str.strip()` (`str.strip` also strips
some non-ASCII Unicode whitespace; such characters are instead rejected later
by the allow-list, so both embeddings reject the same inputs). -/
def isPySpace (c : Char) : Bool :=
  c == ' ' || c == '\t' || c == '\n' || c == '\x0d' || c == '\x0b' || c == '\x0c'

/-- Python `str.strip()` on a character list. -/
def pyStrip (l : List Char) : List Char :=
  ((l.dropWhile isPySpace).reverse.dropWhile isPySpace).reverse

/-- Regex substitution `re.sub(pat+, repl, s)` where `pat` matches the
characters with `keep c = false`: each maximal run of rejected characters
becomes a single `repl`. -/
def subRuns (keep : Char → Bool) (repl : Char) : List Char → Bool → List Char
  | [], _ => []
  | c :: rest, inRun =>
    if keep c then c :: subRuns keep repl rest false
    else if inRun then subRuns keep repl rest true
    else repl :: subRuns keep repl rest true

/-- Python `str.strip(chars)`: drop the characters satisfying `p` from both
ends. -/
def stripChars (p : Char → Bool) (l : List Char) : List Char :=
  ((l.dropWhile p).reverse.dropWhile p).reverse

/-- The allow-list of `PATH_SEGMENT_RE` (also of `CLIENT_DATETIME_RE`: the
extra `T` in that character class is already alphanumeric). -/
def pathSegAllowed (c : Char) : Bool :=
  c.isAlpha || c.isDigit || c == '_' || c == '-'

def isSep (c : Char) : Bool := c == '_' || c == '-'

/-- Embeds `sanitize_path_segment`; `Except.error` models the raised
`HTTPException(400, ...)`. -/
def sanitizePathSegment (raw : String) (fieldName : String) : Except String String :=
  let trimmed := pyStrip raw.data
  if trimmed = [] then .error (fieldName ++ " darf nicht leer sein")
  else
    let s1 := subRuns pathSegAllowed '_' trimmed false
    let s2 := subRuns (fun c => !(c == '_')) '_' s1 false
    let s3 := subRuns (fun c => !(c == '-')) '-' s2 false
    let s4 := stripChars isSep s3
    if s4 = [] then .error (fieldName ++ " ist ungueltig")
    else .ok ⟨s4⟩

/-- Embeds `value_or_none`. -/
def valueOrNone : Option String → Option String
  | none => none
  | some v =>
    let trimmed := pyStrip v.data
    if trimmed = [] then none else some ⟨trimmed⟩

/-- Embeds `sanitize_optional_segment`. -/
def sanitizeOptionalSegment (value : Option String) : Except String (Option String) :=
  match valueOrNone value with
  | none => .ok none
  | some candidate => (sanitizePathSegment candidate ("subdir")).map some

/-- The character-for-character replacements performed on the client datetime
before the regex substitution (`:`, `/`, `\`, `.` become `-`; space becomes
`_`). -/
def dtReplace (c : Char) : Char :=
  if c == ':' then '-'
  else if c == ' ' then '_'
  else if c == '/' then '-'
  else if c == '\\' then '-'
  else if c == '.' then '-'
  else c

/-- Embeds `sanitize_client_datetime`. -/
def sanitizeClientDatetime (raw : String) : Except String String :=
  let trimmed := pyStrip raw.data
  if trimmed = [] then .error ("client_datetime darf nicht leer sein")
  else
    let normalized := trimmed.map dtReplace
    let s1 := subRuns pathSegAllowed '-' normalized false
    let s2 := subRuns (fun c => !(c == '-')) '-' s1 false
    let s3 := subRuns (fun c => !(c == '_')) '_' s2 false
    let s4 := stripChars isSep s3
    if s4 = [] then .error ("client_datetime ist ungueltig")
    else .ok ⟨s4⟩

/-! ### app.py: job and slot state

`SlotStatus` / `JobStatus` records and the aggregate status rule
`_update_job_status_locked`.  Timestamps (`utcnow_iso()` strings) are
modelled by rational time values. -/

inductive SlotSt : Type where
  | queued | running | done | failed | cancelled
  deriving DecidableEq, Repr

inductive JobSt : Type where
  | running | done | failed | cancelled
  deriving DecidableEq, Repr

def slotStText : SlotSt → String
  | .queued => "queued"
  | .running => "running"
  | .done => "done"
  | .failed => "failed"
  | .cancelled => "cancelled"

def jobStText : JobSt → String
  | .running => "running"
  | .done => "done"
  | .failed => "failed"
  | .cancelled => "cancelled"

/-- One `SlotStatus` record. -/
structure SlotRec : Type where
  slot : String
  status : SlotSt
  startedAt : Option ℚ
  endedAt : Option ℚ
  message : Option String
  files : List String
  deriving DecidableEq, Repr

/-- One `JobStatus` record (progress fields are derived on read, not stored,
so they live in `SnapRec` below). -/
structure JobRec : Type where
  runId : String
  mode : String
  startedAt : ℚ
  status : JobSt
  endedAt : Option ℚ
  slots : List SlotRec
  modes : List String
  currentMode : Option String
  remainingModes : List String
  deriving DecidableEq, Repr

/-- The aggregate job status as a function of the slot statuses (the rule of
spec section 4.1, written out for the invariant statement). -/
def aggStatus (statuses : List SlotSt) : JobSt :=
  if statuses.any (fun s => s == .queued || s == .running) then .running
  else if statuses.any (fun s => s == .failed) then .failed
  else if statuses.any (fun s => s == .cancelled) then .cancelled
  else .done

/-- Embeds the `job` mutation of `_update_job_status_locked` (the terminal
bookkeeping on `JOB_META` / `CANCEL_FLAGS` / NAS enqueue is handled by
`updateJobStatusFull` below). -/
def updateJobStatus (t : ℚ) (j : JobRec) : JobRec :=
  let statuses := j.slots.map (·.status)
  if statuses.any (fun s => s == .queued || s == .running) then
    { j with status := .running, endedAt := none }
  else
    let st : JobSt :=
      if statuses.any (fun s => s == .failed) then .failed
      else if statuses.any (fun s => s == .cancelled) then .cancelled
      else .done
    { j with status := st, endedAt := some t }

/-- Scheduling metadata recorded in `JOB_META`. -/
structure MetaRec : Type where
  mode : String
  params : PyDict PyVal
  planned : Option ℚ
  deriving DecidableEq, Repr

/-- Embeds `_update_job_status_locked` with its side effects: when the job
becomes terminal, the transient metadata and the cancellation flag are
dropped, and for `done` an upload is enqueued (the returned flag). -/
def updateJobStatusFull (t : ℚ) (runId : String) (j : JobRec) (meta : PyDict MetaRec)
    (flags : PyDict Bool) : JobRec × PyDict MetaRec × PyDict Bool × Bool :=
  let j' := updateJobStatus t j
  if j'.status == .running then (j', meta, flags, false)
  else (j', derase meta runId, derase flags runId, j'.status == .done)

/-! ### app.py: reachable job states (claim C2)

The mutation sites of a job record in the source, serialized by `JOB_LOCK`:

* `start_job` creates the record with all slots `queued` and status
  `running` (`initJob`);
* the head of `_run_slot_sequence` marks the slot `running` and forces the
  job to `running` with a cleared end-timestamp (`beginSlot`);
* the per-mode loop publishes `mode` / `current_mode` / `remaining_modes`
  (`publishMode`);
* the tail of `_run_slot_sequence` writes the terminal slot outcome and
  calls `_update_job_status_locked` (`finishSlot`);
* `cancel_job` on a non-terminal job marks the still-queued slots
  `cancelled` and calls `_update_job_status_locked` (`cancelQueued`).

(`_run_one_slot` is unreachable: no caller in the source refers to it, and it
reads request fields `req.mode` / `req.params` that `JobRequest` does not
define.) -/

def initSlot (name : String) : SlotRec :=
  { slot := name, status := .queued, startedAt := none, endedAt := none,
    message := none, files := [] }

/-- The job record `start_job` registers. -/
def initJob (runId : String) (names : List String) (modeList : List String) (t : ℚ) : JobRec :=
  { runId := runId, mode := modeList.headD "", startedAt := t, status := .running,
    endedAt := none, slots := names.map initSlot, modes := modeList,
    currentMode := some (modeList.headD ""), remainingModes := modeList.tail }

/-- Slot mutation at the head of `_run_slot_sequence`. -/
def markSlotRunning (t : ℚ) (s : SlotRec) : SlotRec :=
  { s with status := .running, startedAt := some (Option.getD s.startedAt t), message := none }

/-- Slot mutation at the tail of `_run_slot_sequence`. -/
def markSlotFinished (outcome : SlotSt) (msg : Option String) (files : List String)
    (t : ℚ) (s : SlotRec) : SlotRec :=
  { s with status := outcome, message := msg, endedAt := some t, files := files }

/-- `cancel_job` marks every still-queued slot cancelled. -/
def cancelIfQueued (t : ℚ) (s : SlotRec) : SlotRec :=
  if s.status == .queued then
    { s with
      status := .cancelled, startedAt := some (Option.getD s.startedAt t),
      endedAt := some t, message := some ("cancelled"), files := [] }
  else s

/-- Clearing of the mode fields once the job is terminal (tail of
`_run_slot_sequence`). -/
def clearModesIfTerminal (j : JobRec) : JobRec :=
  if j.status == JobSt.running then j
  else { j with currentMode := none, remainingModes := [] }

inductive JobStep : JobRec → JobRec → Prop where
  | beginSlot (j : JobRec) (i : Nat) (hi : i < j.slots.length) (t : ℚ) :
      JobStep j { j with
        status := .running, endedAt := none,
        slots := j.slots.set i (markSlotRunning t (j.slots.get ⟨i, hi⟩)) }
  | publishMode (j : JobRec) (m : String) (ms rem : List String) :
      JobStep j { j with
        mode := m, currentMode := some m, modes := ms, remainingModes := rem }
  | finishSlot (j : JobRec) (i : Nat) (hi : i < j.slots.length) (outcome : SlotSt)
      (hout : outcome = .done ∨ outcome = .failed ∨ outcome = .cancelled)
      (msg : Option String) (files : List String) (t : ℚ) :
      JobStep j (clearModesIfTerminal (updateJobStatus t
        { j with
          slots := j.slots.set i
            (markSlotFinished outcome msg files t (j.slots.get ⟨i, hi⟩)) }))
  | cancelQueued (j : JobRec) (t : ℚ) (hrun : j.status = .running) :
      JobStep j (updateJobStatus t { j with slots := j.slots.map (cancelIfQueued t) })

/-- Job states reachable from a fresh submission (the resolved slot set of a
submission is never empty). -/
inductive ReachableJob : JobRec → Prop where
  | init (runId : String) (names : List String) (modeList : List String) (t : ℚ)
      (hne : names ≠ []) : ReachableJob (initJob runId names modeList t)
  | step (j j' : JobRec) (hj : ReachableJob j) (hs : JobStep j j') : ReachableJob j'

/-! ### app.py: snapshots and endpoints

`HTTPException` payloads are modelled by `ApiErr` (status code, the stable
machine-readable code when `http_error` is used, and the message; the
remediation-hint field is not modelled). -/

structure ApiErr : Type where
  status : Nat
  code : Option String
  message : String
  deriving DecidableEq, Repr

def mkErr (status : Nat) (code : Option String) (message : String) : ApiErr :=
  { status := status, code := code, message := message }

/-- A status snapshot: the copied job record plus the derived progress
fields. -/
structure SnapRec : Type where
  job : JobRec
  progressPct : ℤ
  remainingS : Option ℤ
  deriving DecidableEq, Repr

/-- Embeds `job_snapshot`: deep-copies the record, looks up / lazily
re-creates the `JOB_META` entry for a running job, derives the planned
duration, and computes the progress metrics.  Returns the snapshot and the
possibly updated `JOB_META`. -/
def jobSnapshot (meta : PyDict MetaRec) (j : JobRec) (now : ℚ) :
    SnapRec × PyDict MetaRec :=
  let defaultMeta : MetaRec := { mode := j.mode, params := [], planned := none }
  let lookedUp := dlookup meta j.runId
  let m := Option.getD lookedUp defaultMeta
  let meta1 :=
    match lookedUp with
    | some _ => meta
    | none => if j.status == JobSt.running then dinsert meta j.runId defaultMeta else meta
  let plannedAndMeta :=
    match m.planned with
    | some p => (some p, meta1)
    | none =>
      let p := estimatePlannedDuration (if m.mode == "" then j.mode else m.mode) m.params
      if j.status == JobSt.running then (p, dinsert meta1 j.runId { m with planned := p })
      else (p, meta1)
  let slotPayload := j.slots.map (fun s => SlotSnap.mk (slotStText s.status) s.startedAt)
  let metrics := computeProgress (jobStText j.status) slotPayload (some j.startedAt)
    plannedAndMeta.1 now
  ({ job := j, progressPct := metrics.1, remainingS := metrics.2 }, plannedAndMeta.2)

/-- Embeds `jobs_bulk_status` over the `JOBS` registry: falsy (empty) run ids
are dropped first; an empty remainder is a 400; any unknown remaining id is a
404 listing all unknown ids; otherwise one snapshot per remaining id, with
the `JOB_META` mutations of `job_snapshot` threaded through. -/
def jobsBulkStatus (jobs : PyDict JobRec) (meta : PyDict MetaRec) (runIds : List String)
    (now : ℚ) : Except ApiErr (List SnapRec × PyDict MetaRec) :=
  let ids := runIds.filter (fun rid => !(rid == ""))
  if ids = [] then
    .error (mkErr 400 (some ("jobs.missing_run_ids")) ("Keine run_ids angegeben"))
  else
    let missing := ids.filter (fun rid => !(dcontains jobs rid))
    if missing = [] then
      .ok (ids.foldl (fun acc rid =>
        match dlookup jobs rid with
        | some j =>
          let sm := jobSnapshot acc.2 j now
          (acc.1 ++ [sm.1], sm.2)
        | none => acc) (([] : List SnapRec), meta))
    else
      .error (mkErr 404 (some ("jobs.run_ids_unknown"))
        ("Unbekannte run_ids: " ++ String.intercalate (", ") (pySorted missing)))

/-- The process-wide registries of `app.py` (`DEVICES` keys, `JOBS`,
`SLOT_RUNS`, `JOB_META`, `JOB_GROUP_IDS`, `JOB_GROUP_FOLDERS`,
`CANCEL_FLAGS`, and the `RUN_DIRECTORIES` index of storage.py, holding the
run directory as path segments relative to the runs root). -/
structure AppState : Type where
  devices : List String
  jobs : PyDict JobRec
  slotRuns : PyDict String
  jobMeta : PyDict MetaRec
  jobGroupIds : PyDict String
  jobGroupFolders : PyDict String
  cancelFlags : PyDict Bool
  runDirs : PyDict (List String)
  deriving DecidableEq, Repr

/-- Response body of `cancel_job`. -/
structure CancelResp : Type where
  runId : String
  status : String
  deriving DecidableEq, Repr

/-- Embeds `cancel_job`. -/
def cancelJob (st : AppState) (runId : String) (t : ℚ) :
    AppState × Except ApiErr CancelResp :=
  match dlookup st.jobs runId with
  | none => (st, .error (mkErr 404 (some ("jobs.not_found")) ("Unbekannte run_id")))
  | some job =>
    let flags1 :=
      if dcontains st.cancelFlags runId then st.cancelFlags
      else dinsert st.cancelFlags runId false
    if job.status == JobSt.done || job.status == JobSt.failed || job.status == JobSt.cancelled then
      ({ st with cancelFlags := flags1 }, .ok ⟨runId, jobStText job.status⟩)
    else
      let flags2 := dinsert flags1 runId true
      let queuedSlots := (job.slots.filter (fun s => s.status == .queued)).map (·.slot)
      let job1 := { job with slots := job.slots.map (cancelIfQueued t) }
      let r := updateJobStatusFull t runId job1 st.jobMeta flags2
      let slotRuns2 := queuedSlots.foldl (fun acc s =>
        if dlookup acc s == some runId then derase acc s else acc) st.slotRuns
      ({ st with
         jobs := dinsert st.jobs runId r.1, jobMeta := r.2.1, cancelFlags := r.2.2.1,
         slotRuns := slotRuns2 },
       .ok ⟨runId, "cancelled"⟩)

/-! ### app.py: start_job

The admission path of `start_job` with the try/except rollback.  Filesystem
and thread effects are recorded as `Ev` events; environment-dependent
failures inside the try block (an `OSError` from `mkdir`, an I/O error while
writing the run index, a failure spawning the i-th worker thread) are
injected through the `failAt` oracle, and the re-raised exception is
modelled by a 500-class `ApiErr`. -/

/-- Derived, immutable per-job storage info (source name
`RunStorageInfo`; the composed `filename_prefix` is called
`filenameBase` here). -/
structure RunStorage : Type where
  experiment : String
  subdir : Option String
  timestampDir : String
  timestampName : String
  filenameBase : String
  deriving DecidableEq, Repr

/-- The fields of `JobRequest` that `start_job` consumes.  `devices = none`
models the literal `"all"`. -/
structure JobReq : Type where
  devices : Option (List String)
  modes : List String
  paramsByMode : PyDict (PyDict PyVal)
  experimentName : String
  subdir : Option String
  clientDatetime : String
  runName : Option String
  folderName : Option String
  makePlot : Bool
  deriving DecidableEq, Repr

/-- Embeds `_build_run_storage_info`. -/
def buildRunStorageInfo (req : JobReq) : Except ApiErr RunStorage :=
  let subdirSource :=
    match valueOrNone req.subdir with
    | some _ => req.subdir
    | none => req.folderName
  match sanitizePathSegment req.experimentName ("experiment_name") with
  | .error msg => .error (mkErr 400 none msg)
  | .ok experimentSegment =>
    match sanitizeOptionalSegment subdirSource with
    | .error msg => .error (mkErr 400 none msg)
    | .ok subdirSegment =>
      match sanitizeClientDatetime req.clientDatetime with
      | .error msg => .error (mkErr 400 none msg)
      | .ok timestampSegment =>
        let timestampName : String :=
          ⟨timestampSegment.data.map (fun c => if c == 'T' then '_' else c)⟩
        let filenameParts := [experimentSegment] ++
          (match subdirSegment with | some s => [s] | none => []) ++ [timestampName]
        .ok { experiment := experimentSegment, subdir := subdirSegment,
              timestampDir := timestampSegment, timestampName := timestampName,
              filenameBase := String.intercalate ("_") filenameParts }

/-- Embeds `record_job_meta`. -/
def recordJobMeta (mode : String) (params : PyDict PyVal) : MetaRec :=
  { mode := mode, params := params, planned := estimatePlannedDuration mode params }

/-- Filesystem/thread effects of `start_job`, in program order. -/
inductive Ev : Type where
  | reserveSlot (slot : String)
  | createRunDir
  | recordRunDir (runId : String)
  | spawnWorker (slot : String)
  | rollback
  deriving DecidableEq, Repr

/-- Injection points for environment-dependent failures inside the try
block. -/
inductive FailPoint : Type where
  | mkdirRunDir
  | recordRunDir
  | spawnWorker (i : Nat)
  deriving DecidableEq, Repr

/-- The reservation loop under `SLOT_STATE_LOCK`. -/
def reserveSlots (d : PyDict String) (slots : List String) (runId : String) : PyDict String :=
  slots.foldl (fun acc s => dinsert acc s runId) d

/-- The release loop of the except block (`del` only when the slot still maps
to this run). -/
def releaseSlots (d : PyDict String) (slots : List String) (runId : String) : PyDict String :=
  slots.foldl (fun acc s => if dlookup acc s == some runId then derase acc s else acc) d

/-- The except block of `start_job`: releases this run's reservations and
removes the job entry, group entries, cancellation flag, metadata and the
run-directory mapping. -/
def rollbackState (st : AppState) (slots : List String) (runId : String) : AppState :=
  { st with
    slotRuns := releaseSlots st.slotRuns slots runId,
    jobs := derase st.jobs runId,
    jobGroupIds := derase st.jobGroupIds runId,
    jobGroupFolders := derase st.jobGroupFolders runId,
    cancelFlags := derase st.cancelFlags runId,
    jobMeta := derase st.jobMeta runId,
    runDirs := derase st.runDirs runId }

/-- Resolution of the target slot set against the device registry. -/
def resolveSlots (st : AppState) (req : JobReq) : List String :=
  match req.devices with
  | none => pySorted st.devices
  | some ds => ds.filter (fun s => st.devices.contains s)

/-- `req.run_name or <generated>` (an empty `run_name` is falsy). -/
def resolvedRunId (req : JobReq) (genId : String) : String :=
  match req.runName with
  | some s => if s == "" then genId else s
  | none => genId

def errModesEmpty : ApiErr :=
  mkErr 422 (some ("jobs.invalid_request")) ("modes must not be empty")

def errMissingParams (m : String) : ApiErr :=
  mkErr 422 (some ("jobs.invalid_request")) ("missing params for mode " ++ m)

def errInvalidDevices : ApiErr :=
  mkErr 400 (some ("jobs.invalid_devices")) ("Keine gueltigen devices angegeben")

def errRunIdConflict : ApiErr :=
  mkErr 409 (some ("jobs.run_id_conflict")) ("run_id bereits aktiv")

def errSlotsBusy (busy : List String) : ApiErr :=
  mkErr 409 (some ("jobs.slots_busy")) ("Slots belegt: " ++ String.intercalate (", ") busy)

/-- A re-raised environment exception (surfaced by the transport layer as a
500-class error). -/
def errInternal : ApiErr := mkErr 500 none ("internal error")

/-- The index of the worker-thread spawn that `failAt` makes fail, if any. -/
def spawnFailIndex : Option FailPoint → Option Nat
  | some (.spawnWorker i) => some i
  | _ => none

/-- The final `with JOB_LOCK: return job_snapshot(JOBS[run_id])`. -/
def finishStart (st3 : AppState) (runId : String) (t : ℚ) (evs : List Ev) :
    AppState × List Ev × Except ApiErr SnapRec :=
  match dlookup st3.jobs runId with
  | some j =>
    let sm := jobSnapshot st3.jobMeta j t
    ({ st3 with jobMeta := sm.2 }, evs, .ok sm.1)
  | none => (st3, evs, .error errInternal)

/-- The try block of `start_job` (entered with all slots reserved), with the
except-block rollback on any failure. -/
def startJobTry (st1 : AppState) (req : JobReq) (slots : List String) (runId : String)
    (t : ℚ) (failAt : Option FailPoint) (evs : List Ev) :
    AppState × List Ev × Except ApiErr SnapRec :=
  match buildRunStorageInfo req with
  | .error e => (rollbackState st1 slots runId, evs ++ [Ev.rollback], .error e)
  | .ok info =>
    if failAt = some FailPoint.mkdirRunDir then
      (rollbackState st1 slots runId, evs ++ [Ev.rollback], .error errInternal)
    else
      let evs := evs ++ [Ev.createRunDir]
      let runDirParts := [info.experiment] ++
        (match info.subdir with | some s => [s] | none => []) ++ [info.timestampDir]
      let st2 := { st1 with runDirs := dinsert st1.runDirs runId runDirParts }
      if failAt = some FailPoint.recordRunDir then
        (rollbackState st2 slots runId, evs ++ [Ev.rollback], .error errInternal)
      else
        let evs := evs ++ [Ev.recordRunDir runId]
        let rawGroupId :=
          match valueOrNone req.folderName with
          | some g => some g
          | none => valueOrNone req.subdir
        let firstMode := req.modes.headD ""
        let job := initJob runId slots req.modes t
        let st3 := { st2 with
          jobs := dinsert st2.jobs runId job,
          cancelFlags := dinsert st2.cancelFlags runId false,
          jobMeta := dinsert st2.jobMeta runId
            (recordJobMeta firstMode (Option.getD (dlookup req.paramsByMode firstMode) [])),
          jobGroupIds :=
            match rawGroupId with
            | some g => dinsert st2.jobGroupIds runId g
            | none => derase st2.jobGroupIds runId,
          jobGroupFolders :=
            match info.subdir with
            | some f => dinsert st2.jobGroupFolders runId f
            | none => derase st2.jobGroupFolders runId }
        match spawnFailIndex failAt with
        | some i =>
          if i < slots.length then
            (rollbackState st3 slots runId,
             evs ++ (slots.take i).map Ev.spawnWorker ++ [Ev.rollback], .error errInternal)
          else finishStart st3 runId t (evs ++ slots.map Ev.spawnWorker)
        | none => finishStart st3 runId t (evs ++ slots.map Ev.spawnWorker)

/-- Embeds `start_job`: request validation, slot resolution, run-id conflict
check, the all-or-nothing busy check and reservation under
`SLOT_STATE_LOCK`, then the try block. -/
def startJob (st : AppState) (req : JobReq) (genId : String) (t : ℚ)
    (failAt : Option FailPoint) : AppState × List Ev × Except ApiErr SnapRec :=
  if req.modes = [] then (st, [], .error errModesEmpty)
  else
    match req.modes.find? (fun m => !(dcontains req.paramsByMode m)) with
    | some m => (st, [], .error (errMissingParams m))
    | none =>
      let slots := resolveSlots st req
      if slots = [] then (st, [], .error errInvalidDevices)
      else
        let runId := resolvedRunId req genId
        if dcontains st.jobs runId then (st, [], .error errRunIdConflict)
        else
          let busy := pySorted (slots.filter (fun s => dcontains st.slotRuns s))
          if busy = [] then
            startJobTry { st with slotRuns := reserveSlots st.slotRuns slots runId }
              req slots runId t failAt (slots.map Ev.reserveSlot)
          else (st, [], .error (errSlotsBusy busy))

/-! ### nas_smb.py / nas.py: upload verification (claim C4)

The verification tail of `_upload_worker` after a successful transfer
(`rsync` returncode 0).  The run directory marker files are the observable
outcome: `uploadFailed` is the `upload_failed` marker that `_mark_failed`
writes, `uploadDone` is the `UPLOAD_DONE` completion marker.  An
`Except.error` models an exception escaping the worker thread: no marker
file is written at all.

`nas.NASManager` defines `_mark_failed`; `nas_smb.NASManager` (the
implementation `app.py` imports) calls `self._mark_failed` three times but
never defines the method, so each call raises `AttributeError`. -/

structure MarkerFiles : Type where
  uploadFailed : Option String
  uploadDone : Option String
  deriving DecidableEq, Repr

/-- Whether the class `NASManager` of nas.py defines `_mark_failed`. -/
def nasDefinesMarkFailed : Bool := true

/-- Whether the class `NASManager` of nas_smb.py defines `_mark_failed`
(it does not: the attribute lookup raises `AttributeError`). -/
def smbDefinesMarkFailed : Bool := false

/-- A `self._mark_failed(run_dir, reason)` call: writes the failure marker
when the method exists, raises `AttributeError` otherwise. -/
def callMarkFailed (defines : Bool) (files : MarkerFiles) (reason : String) :
    Except String MarkerFiles :=
  if defines then .ok { files with uploadFailed := some reason }
  else .error ("AttributeError: _mark_failed")

/-- The verification tail of `nas_smb.NASManager._upload_worker`: compares the
local and remote file counts (both computed with `rglob`); on a shortfall it
calls `self._mark_failed`, whose `AttributeError` is caught by the enclosing
`except`, which calls `self._mark_failed` again and lets the second
`AttributeError` escape the worker thread. -/
def smbVerifyTail (localCount remoteCount : Nat) (now : String) : Except String MarkerFiles :=
  let files : MarkerFiles := { uploadFailed := none, uploadDone := none }
  if remoteCount < localCount then
    match callMarkFailed smbDefinesMarkFailed files
        ("verify mismatch local=" ++ toString localCount ++ " remote=" ++ toString remoteCount) with
    | .ok f => .ok f
    | .error exc =>
      callMarkFailed smbDefinesMarkFailed files ("upload error: " ++ exc)
  else .ok { files with uploadDone := some now }

/-- The verification tail of `nas.NASManager._upload_worker`: the remote
count comes from a remote `find | wc -l`; `-1` is the sentinel for a failed
or unparseable count.  The failure marker is written only when
`remote_count >= 0 and remote_count < local_count`. -/
def nasVerifyTail (localCount : Nat) (remoteCount : ℤ) (now : String) : MarkerFiles :=
  if 0 ≤ remoteCount ∧ remoteCount < (localCount : ℤ) then
    { uploadFailed := some ("verify mismatch local=" ++ toString localCount ++
        " remote=" ++ toString remoteCount),
      uploadDone := none }
  else { uploadFailed := none, uploadDone := some now }

/-! ### nas_smb.py / nas.py: retention (claim C5)

One pass of `_apply_retention` over the directories found below the runs
root.  Marker and directory timestamps are modelled as rational epoch
seconds; `markerMtime = none` models a failing `marker.stat()` (the source
then falls back to the directory timestamp); `rmtreeOk = false` models a
failing `shutil.rmtree` (caught and logged, the directory survives). -/

structure RunDirEntry : Type where
  name : String
  isDir : Bool
  hasMarker : Bool
  markerMtime : Option ℚ
  dirMtime : ℚ
  rmtreeOk : Bool
  deriving DecidableEq, Repr

/-- The timestamp the retention check compares against the cutoff. -/
def effectiveTs (d : RunDirEntry) : ℚ := Option.getD d.markerMtime d.dirMtime

def retentionGo (cutoff : ℚ) : List RunDirEntry → List RunDirEntry
  | [] => []
  | d :: rest =>
    if !d.isDir then retentionGo cutoff rest
    else if !d.hasMarker then retentionGo cutoff rest
    else if effectiveTs d ≤ cutoff then
      (if d.rmtreeOk then d :: retentionGo cutoff rest else retentionGo cutoff rest)
    else retentionGo cutoff rest

/-- Embeds `_apply_retention`: returns the directories deleted by this pass
(`cutoff = utcnow() - timedelta(days=retention_days)`). -/
def applyRetention (retentionDays : ℤ) (now : ℚ) (dirs : List RunDirEntry) :
    List RunDirEntry :=
  retentionGo (now - (retentionDays : ℚ) * 86400) dirs

/-! ### Predicates used in theorem statements -/

def isReserveEv : Ev → Bool
  | .reserveSlot _ => true
  | _ => false

def isSpawnEv : Ev → Bool
  | .spawnWorker _ => true
  | _ => false

/-- Every slot-reservation event precedes every worker-spawn event. -/
def reservesBeforeSpawns (evs : List Ev) : Prop :=
  ∀ i j, (hi : i < evs.length) → (hj : j < evs.length) →
    isSpawnEv (evs.get ⟨i, hi⟩) = true → isReserveEv (evs.get ⟨j, hj⟩) = true → j < i

/-- No two adjacent underscores and no two adjacent hyphens. -/
def segChainOk (l : List Char) : Prop :=
  List.Chain' (fun a b => ¬(a = '_' ∧ b = '_') ∧ ¬(a = '-' ∧ b = '-')) l

/-- The guarantee of a successful sanitization: non-empty, allow-listed
characters only, separator runs collapsed, ends trimmed. -/
def goodSegment (s : String) : Prop :=
  s.data ≠ [] ∧
  (∀ c ∈ s.data, pathSegAllowed c = true) ∧
  segChainOk s.data ∧
  (∀ c, s.data.head? = some c → isSep c = false) ∧
  (∀ c, s.data.getLast? = some c → isSep c = false)


/-! ### Concrete example data (used by witnesses and counterexamples) -/

def exSlotRunning : SlotRec :=
  { slot := "slot01", status := .running, startedAt := some 0, endedAt := none,
    message := none, files := [] }

def exSlotQueued : SlotRec :=
  { slot := "slot02", status := .queued, startedAt := none, endedAt := none,
    message := none, files := [] }

/-- A registered job with one running and one queued slot. -/
def exJobRunning : JobRec :=
  { runId := "runA", mode := "CV", startedAt := 0, status := .running, endedAt := none,
    slots := [exSlotRunning, exSlotQueued], modes := ["CV"], currentMode := some ("CV"),
    remainingModes := [] }

/-- App state holding the running job with both slots reserved. -/
def exStateRunning : AppState :=
  { devices := ["slot01", "slot02"], jobs := [("runA", exJobRunning)],
    slotRuns := [("slot01", "runA"), ("slot02", "runA")], jobMeta := [],
    jobGroupIds := [], jobGroupFolders := [], cancelFlags := [("runA", false)],
    runDirs := [] }

def exSlotDone : SlotRec :=
  { slot := "slot01", status := .done, startedAt := some 0, endedAt := some 1,
    message := none, files := [] }

/-- A finished job (terminal snapshots take the arithmetic-free path of
`compute_progress`). -/
def exJobDone : JobRec :=
  { runId := "run_a", mode := "CV", startedAt := 0, status := .done, endedAt := some 1,
    slots := [exSlotDone], modes := ["CV"], currentMode := none, remainingModes := [] }

/-- A well-formed submission request targeting `slot01`. -/
def exReq : JobReq :=
  { devices := some ["slot01"], modes := ["CV"],
    paramsByMode := [("CV", [("duration", .num 5)])], experimentName := "exp",
    subdir := none, clientDatetime := "2024-01-02T10-30-00", runName := some ("runNew"),
    folderName := none, makePlot := true }

/-- App state with two known devices and no jobs. -/
def exStateFree : AppState :=
  { devices := ["slot01", "slot02"], jobs := [], slotRuns := [], jobMeta := [],
    jobGroupIds := [], jobGroupFolders := [], cancelFlags := [], runDirs := [] }

/-- Same state, but `slot01` is bound to another run. -/
def exStateBusy : AppState := { exStateFree with slotRuns := [("slot01", "runOld")] }

end PyBeep

/-! ## Theorems -/

namespace PyBeep

/-! ### Association-list (Python dict) lemmas -/

theorem dlookup_cons_self {α : Type} (k : String) (v : α) (rest : PyDict α) :
    dlookup ((k, v) :: rest) k = some v := by
  simp [dlookup, List.find?_cons_of_pos]

theorem dlookup_cons_ne {α : Type} (pk k : String) (pv : α) (rest : PyDict α)
    (h : pk ≠ k) : dlookup ((pk, pv) :: rest) k = dlookup rest k := by
  unfold dlookup
  rw [List.find?_cons_of_neg]
  simp [h]

theorem dlookup_dinsert {α : Type} (d : PyDict α) (k k' : String) (v : α) :
    dlookup (dinsert d k v) k' = if k' = k then some v else dlookup d k' := by
  induction d with
  | nil =>
    by_cases h : k' = k
    · subst h
      simp [dinsert, dlookup_cons_self]
    · rw [if_neg h]
      show dlookup [(k, v)] k' = dlookup [] k'
      rw [dlookup_cons_ne k k' v [] (fun hc => h hc.symm)]
  | cons p rest ih =>
    obtain ⟨pk, pv⟩ := p
    have hstep : dinsert ((pk, pv) :: rest) k v =
        if pk = k then (k, v) :: rest else (pk, pv) :: dinsert rest k v := by
      simp only [dinsert]
      by_cases hpk : pk = k <;> simp [hpk]
    rw [hstep]
    by_cases hpk : pk = k
    · subst hpk
      rw [if_pos rfl]
      by_cases h : k' = pk
      · subst h
        rw [dlookup_cons_self, if_pos rfl]
      · rw [dlookup_cons_ne pk k' v rest (fun hc => h hc.symm), if_neg h,
          dlookup_cons_ne pk k' pv rest (fun hc => h hc.symm)]
    · rw [if_neg hpk]
      by_cases h : k' = pk
      · subst h
        rw [dlookup_cons_self, dlookup_cons_self, if_neg hpk]
      · rw [dlookup_cons_ne pk k' pv _ (fun hc => h hc.symm), ih,
          dlookup_cons_ne pk k' pv rest (fun hc => h hc.symm)]

theorem dlookup_derase {α : Type} (d : PyDict α) (k k' : String) :
    dlookup (derase d k) k' = if k' = k then none else dlookup d k' := by
  induction d with
  | nil => by_cases h : k' = k <;> simp [derase, dlookup, h]
  | cons p rest ih =>
    obtain ⟨pk, pv⟩ := p
    have hstep : derase ((pk, pv) :: rest) k =
        if pk = k then derase rest k else (pk, pv) :: derase rest k := by
      simp only [derase, List.filter_cons]
      by_cases hpk : pk = k <;> simp [hpk]
    rw [hstep]
    by_cases hpk : pk = k
    · subst hpk
      rw [if_pos rfl, ih]
      by_cases h : k' = pk
      · rw [if_pos h, if_pos h]
      · rw [if_neg h, if_neg h, dlookup_cons_ne pk k' pv rest (fun hc => h (hc.symm))]
    · rw [if_neg hpk]
      by_cases h : k' = pk
      · subst h
        rw [dlookup_cons_self, dlookup_cons_self, if_neg hpk]
      · rw [dlookup_cons_ne pk k' pv _ (fun hc => h hc.symm),
          dlookup_cons_ne pk k' pv rest (fun hc => h hc.symm), ih]

theorem dcontains_iff {α : Type} (d : PyDict α) (k : String) :
    dcontains d k = true ↔ ∃ v, dlookup d k = some v := by
  unfold dcontains dlookup
  cases h : List.find? (fun p => p.1 == k) d <;> simp

theorem dcontains_false {α : Type} (d : PyDict α) (k : String)
    (h : dcontains d k = false) : dlookup d k = none := by
  unfold dcontains at h
  unfold dlookup
  cases hf : List.find? (fun p => p.1 == k) d
  · rfl
  · rw [hf] at h
    simp at h

/-- Reserving a list of slots: lookup is the run id on the list, unchanged
off it. -/
theorem reserveSlots_lookup (slots : List String) (d : PyDict String) (runId k : String) :
    dlookup (reserveSlots d slots runId) k =
      if k ∈ slots then some runId else dlookup d k := by
  induction slots generalizing d with
  | nil => simp [reserveSlots]
  | cons s rest ih =>
    simp only [reserveSlots, List.foldl_cons] at ih ⊢
    rw [ih (dinsert d s runId)]
    by_cases hmem : k ∈ rest
    · simp [hmem, List.mem_cons, or_true]
    · by_cases hks : k = s
      · subst hks
        simp [hmem, dlookup_dinsert]
      · simp [hmem, hks, dlookup_dinsert]

/-- A key outside the released slot list is untouched. -/
theorem releaseSlots_lookup_not_mem (slots : List String) (d : PyDict String)
    (runId k : String) (hk : k ∉ slots) :
    dlookup (releaseSlots d slots runId) k = dlookup d k := by
  induction slots generalizing d with
  | nil => simp [releaseSlots]
  | cons s rest ih =>
    simp only [releaseSlots, List.foldl_cons] at ih ⊢
    have hkr : k ∉ rest := fun h => hk (List.mem_cons_of_mem s h)
    have hks : k ≠ s := fun h => hk (h ▸ List.mem_cons_self s rest)
    by_cases hcond : dlookup d s == some runId
    · rw [if_pos hcond, ih (derase d s) hkr, dlookup_derase, if_neg hks]
    · rw [if_neg (by simpa using hcond), ih d hkr]

/-- A key already absent stays absent through the release loop. -/
theorem releaseSlots_lookup_none (slots : List String) (d : PyDict String)
    (runId k : String) (hk : dlookup d k = none) :
    dlookup (releaseSlots d slots runId) k = none := by
  induction slots generalizing d with
  | nil => simpa [releaseSlots] using hk
  | cons s rest ih =>
    simp only [releaseSlots, List.foldl_cons] at ih ⊢
    by_cases hcond : dlookup d s == some runId
    · rw [if_pos hcond]
      apply ih
      rw [dlookup_derase]
      by_cases hks : k = s <;> simp [hks, hk]
    · rw [if_neg (by simpa using hcond)]
      exact ih d hk

/-- A key on the list whose current binding is this run (or absent) ends up
absent after the release loop. -/
theorem releaseSlots_lookup_mem (slots : List String) (d : PyDict String)
    (runId k : String) (hk : k ∈ slots)
    (hall : ∀ s ∈ slots, dlookup d s = some runId ∨ dlookup d s = none) :
    dlookup (releaseSlots d slots runId) k = none := by
  induction slots generalizing d with
  | nil => cases hk
  | cons s rest ih =>
    simp only [releaseSlots, List.foldl_cons] at ih ⊢
    rcases List.mem_cons.mp hk with hks | hkr
    · subst hks
      rcases hall k (List.mem_cons_self k rest) with hsome | hnone
      · rw [if_pos (by simp [hsome])]
        apply releaseSlots_lookup_none
        rw [dlookup_derase, if_pos rfl]
      · rw [if_neg (by simp [hnone])]
        exact releaseSlots_lookup_none rest d runId k hnone
    · by_cases hcond : dlookup d s == some runId
      · rw [if_pos hcond]
        apply ih (derase d s) hkr
        intro x hx
        rw [dlookup_derase]
        by_cases hxs : x = s
        · simp [hxs]
        · simpa [hxs] using hall x (List.mem_cons_of_mem s hx)
      · rw [if_neg (by simpa using hcond)]
        exact ih d hkr (fun x hx => hall x (List.mem_cons_of_mem s hx))

/-- Releasing the reserved slots restores the original mapping, provided none
of them was bound before the reservation. -/
theorem releaseSlots_reserveSlots (slots : List String) (d : PyDict String)
    (runId : String) (hfree : ∀ s ∈ slots, dlookup d s = none) (k : String) :
    dlookup (releaseSlots (reserveSlots d slots runId) slots runId) k = dlookup d k := by
  by_cases hk : k ∈ slots
  · rw [releaseSlots_lookup_mem slots _ runId k hk ?hall, (hfree k hk).symm]
    case hall =>
      intro s hs
      rw [reserveSlots_lookup]
      simp [hs]
  · rw [releaseSlots_lookup_not_mem slots _ runId k hk, reserveSlots_lookup, if_neg hk]

/-! ### pythonRound bounds and monotonicity -/

theorem pythonRound_bounds (q : ℚ) :
    Int.floor q ≤ pythonRound q ∧ pythonRound q ≤ Int.floor q + 1 := by
  unfold pythonRound
  split_ifs <;> omega

theorem pythonRound_mono {x y : ℚ} (h : x ≤ y) : pythonRound x ≤ pythonRound y := by
  rcases lt_or_eq_of_le (Int.floor_le_floor h) with hf | hf
  · calc pythonRound x ≤ Int.floor x + 1 := (pythonRound_bounds x).2
      _ ≤ Int.floor y := by omega
      _ ≤ pythonRound y := (pythonRound_bounds y).1
  · unfold pythonRound
    rw [← hf]
    have hfr : x - (Int.floor x : ℚ) ≤ y - (Int.floor x : ℚ) := by linarith
    split_ifs <;> first | omega | linarith

theorem pythonRound_hundred : pythonRound (100 : ℚ) = 100 := by
  unfold pythonRound
  rw [if_pos]
  · norm_num
  · norm_num

theorem pythonRound_le_hundred {q : ℚ} (h : q ≤ 100) : pythonRound q ≤ 100 := by
  calc pythonRound q ≤ pythonRound 100 := pythonRound_mono h
    _ = 100 := pythonRound_hundred

/-! ### Retention lemmas (claim C5) -/

theorem retentionGo_mem (cutoff : ℚ) (dirs : List RunDirEntry) (d : RunDirEntry)
    (hd : d ∈ retentionGo cutoff dirs) :
    d.isDir = true ∧ d.hasMarker = true ∧ effectiveTs d ≤ cutoff ∧ d.rmtreeOk = true := by
  induction dirs with
  | nil => cases hd
  | cons e rest ih =>
    unfold retentionGo at hd
    by_cases h1 : e.isDir
    · rw [if_neg (by simp [h1])] at hd
      by_cases h2 : e.hasMarker
      · rw [if_neg (by simp [h2])] at hd
        by_cases h3 : effectiveTs e ≤ cutoff
        · rw [if_pos h3] at hd
          by_cases h4 : e.rmtreeOk
          · rw [if_pos h4] at hd
            rcases List.mem_cons.mp hd with hde | hdr
            · subst hde
              exact ⟨h1, h2, h3, h4⟩
            · exact ih hdr
          · rw [if_neg h4] at hd
            exact ih hd
        · rw [if_neg h3] at hd
          exact ih hd
      · rw [if_pos (by simp [h2])] at hd
        exact ih hd
    · rw [if_pos (by simp [h1])] at hd
      exact ih hd

/-- A run directory with completion marker whose marker timestamp is exactly
the retention cutoff. -/
def retDirBoundary : RunDirEntry :=
  { name := "run1", isDir := true, hasMarker := true, markerMtime := some 0,
    dirMtime := 0, rmtreeOk := true }

theorem retDirBoundary_deleted :
    retDirBoundary ∈ applyRetention 14 ((14 : ℚ) * 86400) [retDirBoundary] := by
  unfold applyRetention
  have hcut : (14 : ℚ) * 86400 - ((14 : ℤ) : ℚ) * 86400 = 0 := by norm_num
  rw [hcut]
  unfold retentionGo
  rw [if_neg (by decide), if_neg (by decide),
    if_pos (by norm_num [effectiveTs, retDirBoundary]), if_pos (by decide)]
  exact List.mem_cons_self _ _

/-- C5 counterexample: the retention pass of `_apply_retention` deletes a
directory whose completion-marker timestamp equals `now` minus the retention
window exactly, although that timestamp is not strictly older than the
cutoff; the claim, which only licenses deletion for strictly older markers,
is therefore false as stated. -/
theorem C5_retention_boundary_counterexample :
    retDirBoundary ∈ applyRetention 14 ((14 : ℚ) * 86400) [retDirBoundary] ∧
    ¬ (effectiveTs retDirBoundary < (14 : ℚ) * 86400 - ((14 : ℤ) : ℚ) * 86400) := by
  refine ⟨retDirBoundary_deleted, ?_⟩
  norm_num [effectiveTs, retDirBoundary]

/-- C5 (amended): one retention pass deletes a directory only if it carries
the `UPLOAD_DONE` completion marker and its effective timestamp (the marker
timestamp, or the directory timestamp if the marker cannot be statted) is at
most `now` minus the retention window; in particular a directory lacking the
completion marker is never deleted, regardless of its age. -/
theorem C5_retention_upload_gated (retentionDays : ℤ) (now : ℚ)
    (dirs : List RunDirEntry) (d : RunDirEntry)
    (hd : d ∈ applyRetention retentionDays now dirs) :
    d.hasMarker = true ∧ effectiveTs d ≤ now - (retentionDays : ℚ) * 86400 := by
  have h := retentionGo_mem (now - (retentionDays : ℚ) * 86400) dirs d hd
  exact ⟨h.2.1, h.2.2.1⟩

/-- Witness for C5 at a concrete pass: the deleted boundary directory indeed
carries the marker and satisfies the cutoff inequality. -/
theorem C5_retention_upload_gated_witness :
    retDirBoundary.hasMarker = true ∧
    effectiveTs retDirBoundary ≤ (14 : ℚ) * 86400 - ((14 : ℤ) : ℚ) * 86400 :=
  C5_retention_upload_gated 14 ((14 : ℚ) * 86400) [retDirBoundary] retDirBoundary
    retDirBoundary_deleted

/-! ### Upload verification (claim C4) -/

/-- C4 (code bug): on the active SMB implementation, an upload whose remote
file count (1) is below the local file count (2) does not produce the
upload-failure marker file the claim describes: `nas_smb.NASManager` never
defines `_mark_failed`, so the call in the verify-mismatch branch raises
`AttributeError`, the except handler raises again, and the worker thread dies
without writing any marker file (`UPLOAD_DONE` is also left absent).  The
nas.py variant of the same tail, which does define `_mark_failed`, writes the
failure marker and no completion marker, as the claim demands. -/
theorem C4_smb_verify_mismatch_attribute_error :
    smbVerifyTail 2 1 ("2026-01-01T00:00:00Z") =
      Except.error ("AttributeError: _mark_failed") ∧
    nasVerifyTail 2 1 ("2026-01-01T00:00:00Z") =
      { uploadFailed := some ("verify mismatch local=2 remote=1"), uploadDone := none } := by
  exact ⟨rfl, by decide⟩

/-! ### Planned-duration scenario (claim C9) -/

/-- C9: `estimate_planned_duration` for mode CV with
`start=0, vertex1=0.5, vertex2=-0.5, end=0, scan_rate=0.1, cycles=1` returns
the sweep distance `|0.5-0| + |-0.5-0.5| + |0-(-0.5)|` divided by the scan
rate `0.1`, times the cycle count `max 1 1 = 1`, plus the fixed `1.0` setup
constant — exactly `21.0` seconds. -/
theorem C9_cv_duration_scenario :
    estimatePlannedDuration ("CV")
      [("start", .num 0), ("vertex1", .num (1/2)), ("vertex2", .num (-(1/2))),
       ("end", .num 0), ("scan_rate", .num (1/10)), ("cycles", .num 1)] = some 21 := by
  unfold estimatePlannedDuration
  rw [if_neg (by decide), if_pos (by decide : pyToUpper ("CV") = "CV")]
  have hsr : asPositiveFloat (some (PyVal.num (1/10))) = some (1/10) := by
    simp only [asPositiveFloat, asFloat]
    rw [if_neg (by norm_num)]
  have hcy : asPositiveFloat (some (PyVal.num 1)) = some 1 := by
    simp only [asPositiveFloat, asFloat]
    rw [if_neg (by norm_num)]
  show (match asPositiveFloat (some (PyVal.num (1/10))), asPositiveFloat (some (PyVal.num 1)),
      asFloat (some (PyVal.num 0)), asFloat (some (PyVal.num (1/2))),
      asFloat (some (PyVal.num (-(1/2)))), asFloat (some (PyVal.num 0)) with
    | some scanRate, some cycles, some start, some vertex1, some vertex2, some endV =>
      if |vertex1 - start| + |vertex2 - vertex1| + |endV - vertex2| ≤ 0 then none
      else some ((|vertex1 - start| + |vertex2 - vertex1| + |endV - vertex2|) / scanRate *
        max cycles 1 + 1)
    | _, _, _, _, _, _ => none) = some 21
  rw [hsr, hcy]
  simp only [asFloat]
  have habs : |(1 : ℚ)/2 - 0| + |(-(1/2) : ℚ) - 1/2| + |(0 : ℚ) - -(1/2)| = 2 := by
    rw [abs_of_nonneg (by norm_num), abs_of_nonpos (by norm_num), abs_of_nonneg (by norm_num)]
    norm_num
  rw [if_neg (by rw [habs]; norm_num), habs]
  norm_num


/-! ### Per-slot progress contribution (claims C6) -/

/-- The running branch of the per-slot loop, written out: elapsed time is
clamped at 0, the ratio to the planned duration is clamped at 1, scaled to
100, rounded, capped at 99, floored at 0. -/
theorem slotProgressEntry_running (fb : Option ℚ) (p now started : ℚ) (hp : 0 < p) :
    slotProgressEntry fb (some p) now ⟨("running"), some started⟩ =
      (max 0 (if 100 ≤ pythonRound (min 1 (max (now - started) 0 / p) * 100) then 99
        else pythonRound (min 1 (max (now - started) 0 / p) * 100)),
       some (max (Int.ceil (p - max (now - started) 0)) 0)) := by
  simp only [slotProgressEntry]
  rw [if_neg (by decide), if_neg (by decide), if_pos (by decide)]
  simp only [Option.orElse]
  rw [if_pos hp]

/-- Monotonicity of the running contribution in the current time. -/
theorem slotContribution_mono (fb : Option ℚ) (p started now1 now2 : ℚ)
    (hp : 0 < p) (h12 : now1 ≤ now2) :
    (slotProgressEntry fb (some p) now1 ⟨("running"), some started⟩).1 ≤
    (slotProgressEntry fb (some p) now2 ⟨("running"), some started⟩).1 := by
  rw [slotProgressEntry_running fb p now1 started hp,
    slotProgressEntry_running fb p now2 started hp]
  have harg : min 1 (max (now1 - started) 0 / p) * 100 ≤
      min 1 (max (now2 - started) 0 / p) * 100 := by
    gcongr
  have hb1 : min 1 (max (now1 - started) 0 / p) * 100 ≤ 100 := by
    have h := min_le_left 1 (max (now1 - started) 0 / p)
    nlinarith
  have hb2 : min 1 (max (now2 - started) 0 / p) * 100 ≤ 100 := by
    have h := min_le_left 1 (max (now2 - started) 0 / p)
    nlinarith
  have hr := pythonRound_mono harg
  have hc1 := pythonRound_le_hundred hb1
  have hc2 := pythonRound_le_hundred hb2
  have hcap : (if 100 ≤ pythonRound (min 1 (max (now1 - started) 0 / p) * 100) then (99:ℤ)
      else pythonRound (min 1 (max (now1 - started) 0 / p) * 100)) ≤
      (if 100 ≤ pythonRound (min 1 (max (now2 - started) 0 / p) * 100) then 99
      else pythonRound (min 1 (max (now2 - started) 0 / p) * 100)) := by
    split_ifs <;> omega
  exact max_le_max le_rfl hcap

/-- C6 counterexample: a slot that reached the terminal status `cancelled`
contributes 0 to `progress_pct` in `compute_progress`, not 100: the per-slot
loop only maps `done` and `failed` to 100, and `cancelled` falls through to
the catch-all 0 branch.  The claim that the contribution is exactly 100 at
any terminal status is therefore false. -/
theorem C6_cancelled_contribution_counterexample :
    (slotProgressEntry none (some 10) 5 ⟨("cancelled"), some 0⟩).1 = 0 ∧
    ¬ ((slotProgressEntry none (some 10) 5 ⟨("cancelled"), some 0⟩).1 = 100) := by
  constructor <;> decide

/-- C6 (amended): for every slot, the per-slot contribution to `progress_pct`
computed by `compute_progress` is monotonically non-decreasing in time while
the slot is running (with fixed start time and positive planned duration),
and is exactly 100 once the slot reaches the terminal status `done` or
`failed`; a terminal `cancelled` slot contributes 0, not 100. -/
theorem C6_slot_contribution_amended :
    (∀ (fb : Option ℚ) (p started now1 now2 : ℚ), 0 < p → now1 ≤ now2 →
      (slotProgressEntry fb (some p) now1 ⟨("running"), some started⟩).1 ≤
      (slotProgressEntry fb (some p) now2 ⟨("running"), some started⟩).1) ∧
    (∀ (fb planned : Option ℚ) (now : ℚ) (s : Option ℚ),
      (slotProgressEntry fb planned now ⟨("done"), s⟩).1 = 100 ∧
      (slotProgressEntry fb planned now ⟨("failed"), s⟩).1 = 100) ∧
    (∀ (fb planned : Option ℚ) (now : ℚ) (s : Option ℚ),
      (slotProgressEntry fb planned now ⟨("cancelled"), s⟩).1 = 0) := by
  refine ⟨fun fb p started now1 now2 hp h12 =>
      slotContribution_mono fb p started now1 now2 hp h12, ?_, ?_⟩
  · intro fb planned now s
    constructor <;> (simp only [slotProgressEntry]; rw [if_pos (by decide)])
  · intro fb planned now s
    simp only [slotProgressEntry]
    rw [if_neg (by decide), if_neg (by decide), if_neg (by decide)]

/-- Witness for C6 at concrete inputs: the running contribution at time 0 is
at most the one at time 1 (planned duration 2), and a done slot contributes
exactly 100. -/
theorem C6_slot_contribution_amended_witness :
    (slotProgressEntry none (some 2) 0 ⟨("running"), some 0⟩).1 ≤
      (slotProgressEntry none (some 2) 1 ⟨("running"), some 0⟩).1 ∧
    (slotProgressEntry none none 0 ⟨("done"), none⟩).1 = 100 :=
  ⟨C6_slot_contribution_amended.1 none 2 0 0 1 (by decide) (by decide),
   (C6_slot_contribution_amended.2.1 none none 0 none).1⟩


/-! ### Aggregate job status invariant (claim C2) -/

/-- The record `_update_job_status_locked` produces satisfies the aggregate
rule and clears the end timestamp exactly when it computes `running`. -/
theorem updateJobStatus_spec (t : ℚ) (j : JobRec) :
    (updateJobStatus t j).status = aggStatus ((updateJobStatus t j).slots.map (fun s => s.status)) ∧
    ((updateJobStatus t j).status = JobSt.running → (updateJobStatus t j).endedAt = none) := by
  simp only [updateJobStatus]
  split_ifs with h1 h2 h3 <;> simp_all [aggStatus]
  · rw [if_neg (by rintro ⟨a, ha, hq | hr⟩; exacts [(h1 a ha).1 hq, (h1 a ha).2 hr])]
  · rw [if_neg (by rintro ⟨a, ha, hq | hr⟩; exacts [(h1 a ha).1 hq, (h1 a ha).2 hr]),
      if_neg (by rintro ⟨a, ha, hf⟩; exact h2 a ha hf)]
  · rw [if_neg (by rintro ⟨a, ha, hq | hr⟩; exacts [(h1 a ha).1 hq, (h1 a ha).2 hr]),
      if_neg (by rintro ⟨a, ha, hf⟩; exact h2 a ha hf),
      if_neg (by rintro ⟨a, ha, hc⟩; exact h3 a ha hc)]

theorem clearModes_preserves (j : JobRec) :
    (clearModesIfTerminal j).status = j.status ∧ (clearModesIfTerminal j).slots = j.slots ∧
    (clearModesIfTerminal j).endedAt = j.endedAt := by
  unfold clearModesIfTerminal
  split_ifs <;> simp

theorem aggStatus_running_of_mem (slots : List SlotRec) (s : SlotRec) (hs : s ∈ slots)
    (h : s.status = SlotSt.queued ∨ s.status = SlotSt.running) :
    aggStatus (slots.map (fun x => x.status)) = JobSt.running := by
  unfold aggStatus
  rw [if_pos]
  rw [List.any_eq_true]
  exact ⟨s.status, List.mem_map_of_mem _ hs, by rcases h with h | h <;> simp [h]⟩

/-- C2: for every reachable job state, the stored aggregate status is exactly
the section-4.1 function of the slot statuses — `running` whenever any slot
is `queued` or `running` (with the end timestamp cleared), else `failed` if
any slot failed, else `cancelled` if any slot was cancelled, else `done`. -/
theorem C2_aggregate_status_invariant (j : JobRec) (hreach : ReachableJob j) :
    j.status = aggStatus (j.slots.map (fun s => s.status)) ∧
    (j.status = JobSt.running → j.endedAt = none) := by
  induction hreach with
  | init runId names modeList t hne =>
    constructor
    · cases names with
      | nil => exact absurd rfl hne
      | cons n rest =>
        exact (aggStatus_running_of_mem _ (initSlot n) (by simp [initJob]) (Or.inl rfl)).symm
    · intro _; rfl
  | step j j' hj hs ih =>
    cases hs with
    | beginSlot i hi t =>
      have hlen : i < (j.slots.set i (markSlotRunning t (j.slots.get ⟨i, hi⟩))).length := by
        simpa using hi
      have hget : (j.slots.set i (markSlotRunning t (j.slots.get ⟨i, hi⟩))).get ⟨i, hlen⟩ =
          markSlotRunning t (j.slots.get ⟨i, hi⟩) := by
        apply List.getElem_set_self
      have hmem : markSlotRunning t (j.slots.get ⟨i, hi⟩) ∈
          j.slots.set i (markSlotRunning t (j.slots.get ⟨i, hi⟩)) := by
        nth_rewrite 2 [← hget]
        exact List.get_mem _ _ hlen
      constructor
      · exact (aggStatus_running_of_mem _ (markSlotRunning t (j.slots.get ⟨i, hi⟩))
          hmem (Or.inr rfl)).symm
      · intro _; rfl
    | publishMode m ms rem => simpa using ih
    | finishSlot i hi outcome hout msg files t =>
      have hu := updateJobStatus_spec t
        { j with
          slots := j.slots.set i (markSlotFinished outcome msg files t (j.slots.get ⟨i, hi⟩)) }
      have hc := clearModes_preserves (updateJobStatus t
        { j with
          slots := j.slots.set i (markSlotFinished outcome msg files t (j.slots.get ⟨i, hi⟩)) })
      refine ⟨?_, ?_⟩
      · rw [hc.1, hc.2.1, hu.1]
      · rw [hc.1, hc.2.2]
        exact hu.2
    | cancelQueued t hrun => exact updateJobStatus_spec t _

/-- Witness for C2 at the initial state of a one-slot submission. -/
theorem C2_aggregate_status_invariant_witness :
    (initJob ("runA") ["slot01"] ["CV"] 0).status =
      aggStatus ((initJob ("runA") ["slot01"] ["CV"] 0).slots.map (fun s => s.status)) ∧
    ((initJob ("runA") ["slot01"] ["CV"] 0).status = JobSt.running →
      (initJob ("runA") ["slot01"] ["CV"] 0).endedAt = none) :=
  C2_aggregate_status_invariant _ (ReachableJob.init ("runA") ["slot01"] ["CV"] 0 (by decide))


/-! ### Cancellation response (claim C10) -/

theorem cancelIfQueued_keeps_running (t : ℚ) (s : SlotRec) (h : s.status = SlotSt.running) :
    cancelIfQueued t s = s := by
  unfold cancelIfQueued
  rw [if_neg (by simp [h])]

theorem updateJobStatusFull_fst (t : ℚ) (runId : String) (j : JobRec)
    (meta : PyDict MetaRec) (flags : PyDict Bool) :
    (updateJobStatusFull t runId j meta flags).1 = updateJobStatus t j := by
  simp only [updateJobStatusFull]
  split_ifs <;> rfl

theorem updateJobStatus_running_of_any (t : ℚ) (j : JobRec)
    (h : j.slots.any (fun s => s.status == SlotSt.running) = true) :
    (updateJobStatus t j).status = JobSt.running := by
  have hc : ((j.slots.map (fun x => x.status)).any
      (fun s => s == SlotSt.queued || s == SlotSt.running)) = true := by
    rw [List.any_eq_true] at h ⊢
    obtain ⟨s, hs, hsr⟩ := h
    exact ⟨s.status, List.mem_map_of_mem _ hs, by simp_all⟩
  simp only [updateJobStatus]
  rw [if_pos hc]

/-- C10: for a registered job that is not yet terminal, the `cancel_job`
response body carries the constant status `"cancelled"`, even though the
stored job record keeps aggregate status `running` as long as any slot is
still running (running slots only wind down cooperatively); only for an
already-terminal job does the response echo the stored status. -/
theorem C10_cancel_response_constant (st : AppState) (runId : String) (t : ℚ) (job : JobRec)
    (hjob : dlookup st.jobs runId = some job) :
    (job.status = JobSt.running →
      (cancelJob st runId t).2 = .ok ⟨runId, ("cancelled")⟩ ∧
      (job.slots.any (fun s => s.status == SlotSt.running) = true →
        (dlookup (cancelJob st runId t).1.jobs runId).map (fun j2 => j2.status) =
          some JobSt.running)) ∧
    (job.status ≠ JobSt.running →
      (cancelJob st runId t).2 = .ok ⟨runId, jobStText job.status⟩) := by
  constructor
  · intro hrun
    have hcond : (job.status == JobSt.done || job.status == JobSt.failed ||
        job.status == JobSt.cancelled) = false := by
      rw [hrun]; rfl
    constructor
    · simp only [cancelJob, hjob]
      rw [if_neg (by simp [hcond])]
    · intro hany
      have hmapany : ((job.slots.map (cancelIfQueued t)).any
          (fun s => s.status == SlotSt.running)) = true := by
        rw [List.any_eq_true] at hany ⊢
        obtain ⟨s, hs, hsr⟩ := hany
        refine ⟨cancelIfQueued t s, List.mem_map_of_mem _ hs, ?_⟩
        rw [cancelIfQueued_keeps_running t s (by simpa using hsr)]
        exact hsr
      simp only [cancelJob, hjob]
      rw [if_neg (by simp [hcond])]
      simp only []
      rw [dlookup_dinsert, if_pos rfl]
      simp only [Option.map]
      rw [updateJobStatusFull_fst]
      exact congrArg some (updateJobStatus_running_of_any t _ hmapany)
  · intro hterm
    have hcond : (job.status == JobSt.done || job.status == JobSt.failed ||
        job.status == JobSt.cancelled) = true := by
      cases h : job.status <;> simp_all
    simp only [cancelJob, hjob]
    rw [if_pos (by simp [hcond])]

/-- Witness for C10: cancelling the example running job answers `"cancelled"`
while the stored job stays `running`. -/
theorem C10_cancel_response_constant_witness :
    (cancelJob exStateRunning ("runA") 5).2 = .ok ⟨("runA"), ("cancelled")⟩ ∧
    (dlookup (cancelJob exStateRunning ("runA") 5).1.jobs ("runA")).map
      (fun j2 => j2.status) = some JobSt.running := by
  have h := C10_cancel_response_constant exStateRunning ("runA") 5 exJobRunning (by decide)
  exact ⟨(h.1 rfl).1, (h.1 rfl).2 (by decide)⟩


/-! ### Slot reservation and rollback (claims C1, C3) -/

theorem isReserveEv_not_spawn (e : Ev) (h : isReserveEv e = true) : isSpawnEv e = false := by
  cases e <;> simp_all [isReserveEv, isSpawnEv]

theorem reservesBeforeSpawns_append (A B : List Ev)
    (hA : ∀ e ∈ A, isReserveEv e = true) (hB : ∀ e ∈ B, isReserveEv e = false) :
    reservesBeforeSpawns (A ++ B) := by
  intro i j hi hj hspawn hres
  have hlenA : A.length ≤ i := by
    by_contra hlt
    push_neg at hlt
    have hget : (A ++ B).get ⟨i, hi⟩ = A.get ⟨i, hlt⟩ := by
      rw [List.get_append]
    have hmem : (A ++ B).get ⟨i, hi⟩ ∈ A := hget ▸ List.get_mem A i hlt
    have := isReserveEv_not_spawn _ (hA _ hmem)
    rw [this] at hspawn
    cases hspawn
  have hltj : j < A.length := by
    by_contra hge
    push_neg at hge
    have hlt2 : j - A.length < B.length := by
      have := List.length_append A B
      omega
    have hget : (A ++ B).get ⟨j, hj⟩ = B.get ⟨j - A.length, hlt2⟩ := by
      rw [List.get_append_right] <;> omega
    have hmem : (A ++ B).get ⟨j, hj⟩ ∈ B := hget ▸ List.get_mem B _ hlt2
    rw [hB _ hmem] at hres
    cases hres
  omega

theorem finishStart_evs (st : AppState) (runId : String) (t : ℚ) (evs : List Ev) :
    (finishStart st runId t evs).2.1 = evs := by
  unfold finishStart
  cases dlookup st.jobs runId <;> rfl

theorem finishStart_slotRuns (st : AppState) (runId : String) (t : ℚ) (evs : List Ev) :
    (finishStart st runId t evs).1.slotRuns = st.slotRuns := by
  unfold finishStart
  cases dlookup st.jobs runId <;> rfl

theorem noReserve_tail_basic (runId : String) (slots : List String) :
    ∀ e ∈ [Ev.createRunDir, Ev.recordRunDir runId] ++ slots.map Ev.spawnWorker,
      isReserveEv e = false := by
  intro e he
  rcases List.mem_append.mp he with h2 | h2
  · simp only [List.mem_cons, List.mem_singleton, List.not_mem_nil, or_false] at h2
    rcases h2 with rfl | rfl <;> rfl
  · obtain ⟨s, _, rfl⟩ := List.mem_map.mp h2
    rfl

theorem startJobTry_evs (st1 : AppState) (req : JobReq) (slots : List String)
    (runId : String) (t : ℚ) (failAt : Option FailPoint) (evs : List Ev) :
    ∃ tail, (startJobTry st1 req slots runId t failAt evs).2.1 = evs ++ tail ∧
      ∀ e ∈ tail, isReserveEv e = false := by
  rcases hb : buildRunStorageInfo req with e | info
  · refine ⟨[Ev.rollback], ?_, ?_⟩
    · simp only [startJobTry, hb]
    · intro e he
      simp only [List.mem_singleton] at he
      subst he
      rfl
  · rcases failAt with _ | fp
    · refine ⟨[Ev.createRunDir, Ev.recordRunDir runId] ++ slots.map Ev.spawnWorker, ?_,
        noReserve_tail_basic runId slots⟩
      simp [startJobTry, hb, spawnFailIndex, finishStart_evs, List.append_assoc]
    · cases fp with
      | mkdirRunDir =>
        refine ⟨[Ev.rollback], ?_, ?_⟩
        · simp [startJobTry, hb]
        · intro e he
          simp only [List.mem_singleton] at he
          subst he
          rfl
      | recordRunDir =>
        refine ⟨[Ev.createRunDir, Ev.rollback], ?_, ?_⟩
        · simp [startJobTry, hb, List.append_assoc]
        · intro e he
          simp only [List.mem_cons, List.mem_singleton, List.not_mem_nil, or_false] at he
          rcases he with rfl | rfl <;> rfl
      | spawnWorker i =>
        by_cases hlt : i < slots.length
        · refine ⟨[Ev.createRunDir, Ev.recordRunDir runId] ++ (slots.take i).map Ev.spawnWorker
            ++ [Ev.rollback], ?_, ?_⟩
          · simp [startJobTry, hb, spawnFailIndex, hlt, List.append_assoc]
          · intro e he
            rcases List.mem_append.mp he with h2 | h2
            · rcases List.mem_append.mp h2 with h3 | h3
              · simp only [List.mem_cons, List.mem_singleton, List.not_mem_nil, or_false] at h3
                rcases h3 with rfl | rfl <;> rfl
              · obtain ⟨s, _, rfl⟩ := List.mem_map.mp h3
                rfl
            · simp only [List.mem_singleton] at h2
              subst h2
              rfl
        · refine ⟨[Ev.createRunDir, Ev.recordRunDir runId] ++ slots.map Ev.spawnWorker, ?_,
            noReserve_tail_basic runId slots⟩
          simp [startJobTry, hb, spawnFailIndex, hlt, finishStart_evs, List.append_assoc]

theorem startJobTry_slotRuns_of_isOk (st1 : AppState) (req : JobReq) (slots : List String)
    (runId : String) (t : ℚ) (failAt : Option FailPoint) (evs : List Ev)
    (hok : (startJobTry st1 req slots runId t failAt evs).2.2.isOk = true) :
    (startJobTry st1 req slots runId t failAt evs).1.slotRuns = st1.slotRuns := by
  rcases hb : buildRunStorageInfo req with e | info
  · simp [startJobTry, hb, Except.isOk, Except.toBool] at hok
  · rcases failAt with _ | fp
    · simp [startJobTry, hb, spawnFailIndex, finishStart_slotRuns]
    · cases fp with
      | mkdirRunDir => simp [startJobTry, hb, Except.isOk, Except.toBool] at hok
      | recordRunDir => simp [startJobTry, hb, Except.isOk, Except.toBool] at hok
      | spawnWorker i =>
        by_cases hlt : i < slots.length
        · simp [startJobTry, hb, spawnFailIndex, hlt, Except.isOk, Except.toBool] at hok
        · simp [startJobTry, hb, spawnFailIndex, hlt, finishStart_slotRuns]

theorem startJobTry_spawnFail_state (st1 : AppState) (req : JobReq) (slots : List String)
    (runId : String) (t : ℚ) (i : Nat) (evs : List Ev)
    (hbOk : (buildRunStorageInfo req).isOk = true) (hi : i < slots.length) :
    ∃ st3 : AppState,
      (startJobTry st1 req slots runId t (some (.spawnWorker i)) evs).1 =
        rollbackState st3 slots runId ∧
      (startJobTry st1 req slots runId t (some (.spawnWorker i)) evs).2.2.isOk = false ∧
      st3.slotRuns = st1.slotRuns ∧
      st3.devices = st1.devices ∧
      (∀ k, k ≠ runId → dlookup st3.jobs k = dlookup st1.jobs k) ∧
      (∀ k, k ≠ runId → dlookup st3.jobMeta k = dlookup st1.jobMeta k) ∧
      (∀ k, k ≠ runId → dlookup st3.cancelFlags k = dlookup st1.cancelFlags k) ∧
      (∀ k, k ≠ runId → dlookup st3.jobGroupIds k = dlookup st1.jobGroupIds k) ∧
      (∀ k, k ≠ runId → dlookup st3.jobGroupFolders k = dlookup st1.jobGroupFolders k) ∧
      (∀ k, k ≠ runId → dlookup st3.runDirs k = dlookup st1.runDirs k) := by
  rcases hb : buildRunStorageInfo req with e | info
  · rw [hb] at hbOk
    simp [Except.isOk, Except.toBool] at hbOk
  · simp only [startJobTry, hb, spawnFailIndex]
    rw [if_neg (by simp), if_neg (by simp), if_pos hi]
    refine ⟨_, rfl, rfl, rfl, rfl, ?_, ?_, ?_, ?_, ?_, ?_⟩
    · intro k hk
      simp only []
      rw [dlookup_dinsert, if_neg hk]
    · intro k hk
      simp only []
      rw [dlookup_dinsert, if_neg hk]
    · intro k hk
      simp only []
      rw [dlookup_dinsert, if_neg hk]
    · intro k hk
      rcases hr : (match valueOrNone req.folderName with
        | some g => some g
        | none => valueOrNone req.subdir : Option String) with _ | g <;>
        simp only [hr] <;>
        first
          | rw [dlookup_derase, if_neg hk]
          | rw [dlookup_dinsert, if_neg hk]
    · intro k hk
      rcases hs : info.subdir with _ | f <;>
        simp only [hs] <;>
        first
          | rw [dlookup_derase, if_neg hk]
          | rw [dlookup_dinsert, if_neg hk]
    · intro k hk
      simp only []
      rw [dlookup_dinsert, if_neg hk]

theorem startJob_busy_case (st : AppState) (req : JobReq) (genId : String) (t : ℚ)
    (failAt : Option FailPoint)
    (hmodes : req.modes ≠ [])
    (hparams : req.modes.find? (fun m => !(dcontains req.paramsByMode m)) = none)
    (hslots : resolveSlots st req ≠ [])
    (hconflict : dcontains st.jobs (resolvedRunId req genId) = false)
    (hbusy : pySorted ((resolveSlots st req).filter (fun s => dcontains st.slotRuns s)) ≠ []) :
    startJob st req genId t failAt =
      (st, [], .error (errSlotsBusy (pySorted ((resolveSlots st req).filter
        (fun s => dcontains st.slotRuns s))))) := by
  simp only [startJob]
  rw [if_neg hmodes]
  simp only [hparams]
  rw [if_neg hslots, if_neg (by simp [hconflict]), if_neg hbusy]

theorem startJob_free_case (st : AppState) (req : JobReq) (genId : String) (t : ℚ)
    (failAt : Option FailPoint)
    (hmodes : req.modes ≠ [])
    (hparams : req.modes.find? (fun m => !(dcontains req.paramsByMode m)) = none)
    (hslots : resolveSlots st req ≠ [])
    (hconflict : dcontains st.jobs (resolvedRunId req genId) = false)
    (hbusy : pySorted ((resolveSlots st req).filter (fun s => dcontains st.slotRuns s)) = []) :
    startJob st req genId t failAt =
      startJobTry
        { st with
          slotRuns := reserveSlots st.slotRuns (resolveSlots st req) (resolvedRunId req genId) }
        req (resolveSlots st req) (resolvedRunId req genId) t failAt
        ((resolveSlots st req).map Ev.reserveSlot) := by
  simp only [startJob]
  rw [if_neg hmodes]
  simp only [hparams]
  rw [if_neg hslots, if_neg (by simp [hconflict]), if_pos hbusy]

theorem pyStrInsert_ne_nil (x : String) (l : List String) : pyStrInsert x l ≠ [] := by
  cases l with
  | nil => simp [pyStrInsert]
  | cons y ys =>
    unfold pyStrInsert
    split_ifs <;> simp

theorem pySorted_eq_nil {l : List String} (h : pySorted l = []) : l = [] := by
  cases l with
  | nil => rfl
  | cons a rest => exact absurd h (pyStrInsert_ne_nil a (pySorted rest))

theorem busy_empty_free (st : AppState) (req : JobReq)
    (hbusy : pySorted ((resolveSlots st req).filter (fun s => dcontains st.slotRuns s)) = []) :
    ∀ s ∈ resolveSlots st req, dlookup st.slotRuns s = none := by
  intro s hs
  have hfil := pySorted_eq_nil hbusy
  rw [List.filter_eq_nil_iff] at hfil
  exact dcontains_false _ _ (by simpa using hfil s hs)

theorem rollback_registry_restore {α : Type} (base st3reg : PyDict α) (runId k : String)
    (hne : ∀ k, k ≠ runId → dlookup st3reg k = dlookup base k)
    (h0 : dlookup base runId = none) :
    dlookup (derase st3reg runId) k = dlookup base k := by
  rw [dlookup_derase]
  by_cases hk : k = runId
  · rw [if_pos hk, hk, h0]
  · rw [if_neg hk, hne k hk]

/-- C1: when a submission passes request validation, slot resolution and the
run-id conflict check, the busy check is all-or-nothing: if any resolved slot
is already bound to a run, `start_job` answers the slots-busy error naming
the offending slots (sorted), mutates no registry and performs no effect; if
no resolved slot is busy, every reservation event precedes every
worker-spawn event in the effect trace, every requested slot is reserved,
and on success every requested slot remains bound to the new run id. -/
theorem C1_slot_reservation_all_or_nothing (st : AppState) (req : JobReq) (genId : String) (t : ℚ)
    (failAt : Option FailPoint)
    (hmodes : req.modes ≠ [])
    (hparams : req.modes.find? (fun m => !(dcontains req.paramsByMode m)) = none)
    (hslots : resolveSlots st req ≠ [])
    (hconflict : dcontains st.jobs (resolvedRunId req genId) = false) :
    (pySorted ((resolveSlots st req).filter (fun s => dcontains st.slotRuns s)) ≠ [] →
      (startJob st req genId t failAt).2.2 = Except.error (errSlotsBusy
        (pySorted ((resolveSlots st req).filter (fun s => dcontains st.slotRuns s)))) ∧
      (startJob st req genId t failAt).1 = st ∧
      (startJob st req genId t failAt).2.1 = []) ∧
    (pySorted ((resolveSlots st req).filter (fun s => dcontains st.slotRuns s)) = [] →
      reservesBeforeSpawns (startJob st req genId t failAt).2.1 ∧
      (∀ s ∈ resolveSlots st req, Ev.reserveSlot s ∈ (startJob st req genId t failAt).2.1) ∧
      ((startJob st req genId t failAt).2.2.isOk = true →
        ∀ s ∈ resolveSlots st req,
          dlookup (startJob st req genId t failAt).1.slotRuns s =
            some (resolvedRunId req genId))) := by
  constructor
  · intro hbusy
    rw [startJob_busy_case st req genId t failAt hmodes hparams hslots hconflict hbusy]
    exact ⟨rfl, rfl, rfl⟩
  · intro hbusy
    rw [startJob_free_case st req genId t failAt hmodes hparams hslots hconflict hbusy]
    obtain ⟨tail, htail, hnores⟩ := startJobTry_evs
      { st with
        slotRuns := reserveSlots st.slotRuns (resolveSlots st req) (resolvedRunId req genId) }
      req (resolveSlots st req) (resolvedRunId req genId) t failAt
      ((resolveSlots st req).map Ev.reserveSlot)
    refine ⟨?_, ?_, ?_⟩
    · rw [htail]
      apply reservesBeforeSpawns_append
      · intro e he
        obtain ⟨s, _, rfl⟩ := List.mem_map.mp he
        rfl
      · exact hnores
    · intro s hs
      rw [htail]
      exact List.mem_append_left _ (List.mem_map_of_mem _ hs)
    · intro hok s hs
      rw [startJobTry_slotRuns_of_isOk _ _ _ _ _ _ _ hok]
      show dlookup (reserveSlots st.slotRuns (resolveSlots st req)
        (resolvedRunId req genId)) s = _
      rw [reserveSlots_lookup, if_pos hs]

/-- C3: a submission that fails after partial setup (run directory created
and recorded, job registered -- modelled by a failure while spawning the
i-th worker thread) is rolled back completely before the exception is
re-raised: slot reservations, job entry, cancellation flag, scheduling
metadata, group entries and the run-directory mapping all read as if the
submission had never happened. -/
theorem C3_rollback_after_partial_setup (st : AppState) (req : JobReq) (genId : String) (t : ℚ) (i : Nat)
    (hmodes : req.modes ≠ [])
    (hparams : req.modes.find? (fun m => !(dcontains req.paramsByMode m)) = none)
    (hslots : resolveSlots st req ≠ [])
    (hconflict : dcontains st.jobs (resolvedRunId req genId) = false)
    (hbusy : pySorted ((resolveSlots st req).filter (fun s => dcontains st.slotRuns s)) = [])
    (hbOk : (buildRunStorageInfo req).isOk = true)
    (hi : i < (resolveSlots st req).length)
    (hmeta : dlookup st.jobMeta (resolvedRunId req genId) = none)
    (hflags : dlookup st.cancelFlags (resolvedRunId req genId) = none)
    (hgid : dlookup st.jobGroupIds (resolvedRunId req genId) = none)
    (hgf : dlookup st.jobGroupFolders (resolvedRunId req genId) = none)
    (hdirs : dlookup st.runDirs (resolvedRunId req genId) = none) :
    (startJob st req genId t (some (.spawnWorker i))).2.2.isOk = false ∧
    (∀ k, dlookup (startJob st req genId t (some (.spawnWorker i))).1.slotRuns k =
      dlookup st.slotRuns k) ∧
    (∀ k, dlookup (startJob st req genId t (some (.spawnWorker i))).1.jobs k =
      dlookup st.jobs k) ∧
    (∀ k, dlookup (startJob st req genId t (some (.spawnWorker i))).1.jobMeta k =
      dlookup st.jobMeta k) ∧
    (∀ k, dlookup (startJob st req genId t (some (.spawnWorker i))).1.cancelFlags k =
      dlookup st.cancelFlags k) ∧
    (∀ k, dlookup (startJob st req genId t (some (.spawnWorker i))).1.jobGroupIds k =
      dlookup st.jobGroupIds k) ∧
    (∀ k, dlookup (startJob st req genId t (some (.spawnWorker i))).1.jobGroupFolders k =
      dlookup st.jobGroupFolders k) ∧
    (∀ k, dlookup (startJob st req genId t (some (.spawnWorker i))).1.runDirs k =
      dlookup st.runDirs k) := by
  rw [startJob_free_case st req genId t (some (.spawnWorker i)) hmodes hparams hslots
    hconflict hbusy]
  obtain ⟨st3, hst3, hokf, hsr, hdev, hjobs3, hmeta3, hflags3, hgid3, hgf3, hdirs3⟩ :=
    startJobTry_spawnFail_state
      { st with
        slotRuns := reserveSlots st.slotRuns (resolveSlots st req) (resolvedRunId req genId) }
      req (resolveSlots st req) (resolvedRunId req genId) t i
      ((resolveSlots st req).map Ev.reserveSlot) hbOk hi
  refine ⟨hokf, ?_, ?_, ?_, ?_, ?_, ?_, ?_⟩
  · intro k
    rw [hst3]
    show dlookup (releaseSlots st3.slotRuns (resolveSlots st req)
      (resolvedRunId req genId)) k = _
    rw [hsr]
    show dlookup (releaseSlots (reserveSlots st.slotRuns (resolveSlots st req)
      (resolvedRunId req genId)) (resolveSlots st req) (resolvedRunId req genId)) k = _
    exact releaseSlots_reserveSlots _ _ _ (busy_empty_free st req hbusy) k
  · intro k
    rw [hst3]
    exact rollback_registry_restore st.jobs st3.jobs _ k hjobs3
      (dcontains_false _ _ hconflict)
  · intro k
    rw [hst3]
    exact rollback_registry_restore st.jobMeta st3.jobMeta _ k hmeta3 hmeta
  · intro k
    rw [hst3]
    exact rollback_registry_restore st.cancelFlags st3.cancelFlags _ k hflags3 hflags
  · intro k
    rw [hst3]
    exact rollback_registry_restore st.jobGroupIds st3.jobGroupIds _ k hgid3 hgid
  · intro k
    rw [hst3]
    exact rollback_registry_restore st.jobGroupFolders st3.jobGroupFolders _ k hgf3 hgf
  · intro k
    rw [hst3]
    exact rollback_registry_restore st.runDirs st3.runDirs _ k hdirs3 hdirs


/-- Witness for C1: submitting to the busy example state is rejected naming
`slot01`, and the state is untouched. -/
theorem C1_slot_reservation_all_or_nothing_witness :
    (startJob exStateBusy exReq ("gen") 0 none).2.2 = Except.error (errSlotsBusy
      (pySorted ((resolveSlots exStateBusy exReq).filter
        (fun s => dcontains exStateBusy.slotRuns s)))) ∧
    (startJob exStateBusy exReq ("gen") 0 none).1 = exStateBusy := by
  have h := C1_slot_reservation_all_or_nothing exStateBusy exReq ("gen") 0 none
    (by decide) (by decide) (by decide) (by decide)
  exact ⟨(h.1 (by decide)).1, (h.1 (by decide)).2.1⟩

/-- Witness for C3: a submission to the free example state that fails while
spawning the first worker re-raises and leaves the registries unchanged. -/
theorem C3_rollback_after_partial_setup_witness :
    (startJob exStateFree exReq ("gen") 0 (some (.spawnWorker 0))).2.2.isOk = false ∧
    dlookup (startJob exStateFree exReq ("gen") 0 (some (.spawnWorker 0))).1.slotRuns
      ("slot01") = dlookup exStateFree.slotRuns ("slot01") := by
  have h := C3_rollback_after_partial_setup exStateFree exReq ("gen") 0 0
    (by decide) (by decide) (by decide) (by decide) (by decide) (by decide) (by decide)
    (by decide) (by decide) (by decide) (by decide) (by decide)
  exact ⟨h.1, h.2.1 ("slot01")⟩


/-! ### Bulk status lookup (claim C8) -/

theorem dlookup_runId (jobs : PyDict JobRec) (rid : String) (j : JobRec)
    (hwk : ∀ p ∈ jobs, p.2.runId = p.1) (h : dlookup jobs rid = some j) : j.runId = rid := by
  unfold dlookup at h
  cases hf : List.find? (fun p => p.1 == rid) jobs with
  | none => rw [hf] at h; cases h
  | some p =>
    rw [hf] at h
    have hp := List.find?_some hf
    have hmem := List.mem_of_find?_eq_some hf
    have hwkp := hwk p hmem
    simp only [Option.map] at h
    cases h
    rw [hwkp]
    exact eq_of_beq hp

/-- C8 (amended): `jobs_bulk_status` first drops falsy (empty-string) run
ids; if any remaining id is unknown, the whole call fails with a 404 listing
the sorted unknown ids and no partial result is produced; if every remaining
id is known, it returns exactly one snapshot per remaining requested id, in
request order. -/
theorem C8_bulk_status_amended (jobs : PyDict JobRec) (meta : PyDict MetaRec)
    (runIds : List String) (now : ℚ)
    (hwk : ∀ p ∈ jobs, p.2.runId = p.1)
    (hne : runIds.filter (fun rid => !(rid == "")) ≠ []) :
    ((runIds.filter (fun rid => !(rid == ""))).filter (fun rid => !(dcontains jobs rid)) ≠ [] →
      jobsBulkStatus jobs meta runIds now = .error (mkErr 404 (some ("jobs.run_ids_unknown"))
        ("Unbekannte run_ids: " ++ String.intercalate (", ")
          (pySorted ((runIds.filter (fun rid => !(rid == ""))).filter
            (fun rid => !(dcontains jobs rid))))))) ∧
    ((runIds.filter (fun rid => !(rid == ""))).filter (fun rid => !(dcontains jobs rid)) = [] →
      ∃ snaps meta2, jobsBulkStatus jobs meta runIds now = .ok (snaps, meta2) ∧
        snaps.map (fun s => s.job.runId) = runIds.filter (fun rid => !(rid == ""))) := by
  constructor
  · intro hmissing
    unfold jobsBulkStatus
    rw [if_neg hne, if_neg hmissing]
  · intro hmissing
    unfold jobsBulkStatus
    rw [if_neg hne, if_pos hmissing]
    refine ⟨_, _, rfl, ?_⟩
    have hall : ∀ rid ∈ runIds.filter (fun rid => !(rid == "")), dcontains jobs rid = true := by
      intro rid hrid
      have := List.filter_eq_nil_iff.mp hmissing rid hrid
      simpa using this
    have main : ∀ (ids : List String) (acc : List SnapRec × PyDict MetaRec),
        (∀ rid ∈ ids, dcontains jobs rid = true) →
        ((ids.foldl (fun acc rid =>
          match dlookup jobs rid with
          | some j =>
            let sm := jobSnapshot acc.2 j now
            (acc.1 ++ [sm.1], sm.2)
          | none => acc) acc).1).map (fun s => s.job.runId) =
        acc.1.map (fun s => s.job.runId) ++ ids := by
      intro ids
      induction ids with
      | nil => intro acc _; simp
      | cons rid rest ih =>
        intro acc hall2
        obtain ⟨j, hj⟩ := (dcontains_iff jobs rid).mp (hall2 rid (List.mem_cons_self rid rest))
        simp only [List.foldl_cons, hj]
        rw [ih _ (fun x hx => hall2 x (List.mem_cons_of_mem rid hx))]
        have hjr : (jobSnapshot acc.2 j now).1.job = j := rfl
        simp [hjr, dlookup_runId jobs rid j hwk hj]
    rw [main _ _ hall]
    simp


/-- C8 counterexample: the claim as stated is false for a request containing
the identifier `""`: that identifier is unknown (it is never registered), so
the claim demands the whole call fail, but `jobs_bulk_status` silently drops
falsy ids and answers with a partial result for the remaining ones. -/
theorem C8_bulk_empty_id_counterexample :
    dlookup [(("run_a" : String), exJobDone)] ("") = none ∧
    (jobsBulkStatus [("run_a", exJobDone)] [] ["run_a", ""] 0).isOk = true := by
  constructor <;> decide

/-- Witness for C8 at a concrete request whose ids are all known. -/
theorem C8_bulk_status_amended_witness :
    (jobsBulkStatus [(("run_a" : String), exJobDone)] [] ["run_a"] 0).isOk = true := by
  have h := C8_bulk_status_amended [("run_a", exJobDone)] [] ["run_a"] 0
    (by decide) (by decide)
  obtain ⟨snaps, meta2, heq, _⟩ := h.2 (by decide)
  rw [heq]
  rfl

/-! ### C7: path-segment sanitization lemmas -/

theorem subRuns_mem_bool (keep : Char → Bool) (repl : Char) (l : List Char) (b : Bool)
    (c : Char) (hc : c ∈ subRuns keep repl l b) : keep c = true ∨ c = repl := by
  induction l generalizing b with
  | nil => cases hc
  | cons d rest ih =>
    unfold subRuns at hc
    by_cases hd : keep d
    · rw [if_pos hd] at hc
      rcases List.mem_cons.mp hc with rfl | hc2
      · exact Or.inl hd
      · exact ih false hc2
    · rw [if_neg hd] at hc
      by_cases hb : b
      · rw [if_pos hb] at hc
        exact ih true hc
      · rw [if_neg hb] at hc
        rcases List.mem_cons.mp hc with rfl | hc2
        · exact Or.inr rfl
        · exact ih true hc2

theorem subRuns_mem (keep : Char → Bool) (repl : Char) (l : List Char) (b : Bool)
    (c : Char) (hc : c ∈ subRuns keep repl l b) : c ∈ l ∨ c = repl := by
  induction l generalizing b with
  | nil => cases hc
  | cons d rest ih =>
    unfold subRuns at hc
    by_cases hd : keep d
    · rw [if_pos hd] at hc
      rcases List.mem_cons.mp hc with rfl | hc2
      · exact Or.inl (List.mem_cons_self _ _)
      · rcases ih false hc2 with h | h
        · exact Or.inl (List.mem_cons_of_mem _ h)
        · exact Or.inr h
    · rw [if_neg hd] at hc
      by_cases hb : b
      · rw [if_pos hb] at hc
        rcases ih true hc with h | h
        · exact Or.inl (List.mem_cons_of_mem _ h)
        · exact Or.inr h
      · rw [if_neg hb] at hc
        rcases List.mem_cons.mp hc with rfl | hc2
        · exact Or.inr rfl
        · rcases ih true hc2 with h | h
          · exact Or.inl (List.mem_cons_of_mem _ h)
          · exact Or.inr h

theorem subRuns_head_true (keep : Char → Bool) (repl : Char) (l : List Char)
    (c : Char) (hc : (subRuns keep repl l true).head? = some c) : keep c = true := by
  induction l with
  | nil => cases hc
  | cons d rest ih =>
    unfold subRuns at hc
    by_cases hd : keep d
    · rw [if_pos hd] at hc
      simp only [List.head?_cons, Option.some.injEq] at hc
      subst hc
      exact hd
    · rw [if_neg hd, if_pos rfl] at hc
      exact ih hc

theorem subRuns_head_false (keep : Char → Bool) (repl : Char) (d : Char) (rest : List Char) :
    (subRuns keep repl (d :: rest) false).head? =
      some (if keep d then d else repl) := by
  unfold subRuns
  by_cases hd : keep d <;> simp [hd]

theorem subRuns_chain_no_repl (keep : Char → Bool) (repl : Char)
    (hkr : ∀ c, keep c = true → ¬ c = repl) (l : List Char) (b : Bool) :
    List.Chain' (fun a c => ¬(a = repl ∧ c = repl)) (subRuns keep repl l b) := by
  induction l generalizing b with
  | nil => simp [subRuns]
  | cons d rest ih =>
    unfold subRuns
    by_cases hd : keep d
    · rw [if_pos hd, List.chain'_cons']
      refine ⟨?_, ih false⟩
      intro y _
      exact fun hcon => hkr d hd hcon.1
    · rw [if_neg hd]
      by_cases hb : b
      · rw [if_pos hb]
        exact ih true
      · rw [if_neg hb, List.chain'_cons']
        refine ⟨?_, ih true⟩
        intro y hy
        intro hcon
        exact hkr y (subRuns_head_true keep repl rest y hy) hcon.2

theorem subRuns_chain_preserve (keep : Char → Bool) (repl : Char)
    (R : Char → Char → Prop)
    (hR1 : ∀ x, R repl x) (hR2 : ∀ x, R x repl) (l : List Char) (b : Bool)
    (h : List.Chain' R l) : List.Chain' R (subRuns keep repl l b) := by
  induction l generalizing b with
  | nil => simp [subRuns]
  | cons d rest ih =>
    rw [List.chain'_cons'] at h
    unfold subRuns
    by_cases hd : keep d
    · rw [if_pos hd, List.chain'_cons']
      refine ⟨?_, ih false h.2⟩
      intro y hy
      cases rest with
      | nil => cases hy
      | cons e rest2 =>
        rw [subRuns_head_false] at hy
        simp only [Option.mem_def, Option.some.injEq] at hy
        subst hy
        by_cases he : keep e
        · rw [if_pos he]
          exact h.1 e (by simp)
        · rw [if_neg he]
          exact hR2 d
    · rw [if_neg hd]
      by_cases hb : b
      · rw [if_pos hb]
        exact ih true h.2
      · rw [if_neg hb, List.chain'_cons']
        exact ⟨fun y _ => hR1 y, ih true h.2⟩

theorem exists_append_dropWhile (p : Char → Bool) (l : List Char) :
    ∃ s, s ++ l.dropWhile p = l := by
  induction l with
  | nil => exact ⟨[], rfl⟩
  | cons a rest ih =>
    by_cases ha : p a
    · obtain ⟨s, hs⟩ := ih
      refine ⟨a :: s, ?_⟩
      rw [List.dropWhile_cons_of_pos ha]
      simpa using hs
    · exact ⟨[], by rw [List.dropWhile_cons_of_neg ha]; rfl⟩

theorem mem_of_dropWhile (p : Char → Bool) (l : List Char) (c : Char)
    (hc : c ∈ l.dropWhile p) : c ∈ l := by
  obtain ⟨s, hs⟩ := exists_append_dropWhile p l
  rw [← hs]
  exact List.mem_append_right s hc

theorem dropWhile_head_false (p : Char → Bool) (l : List Char) (c : Char)
    (hc : (l.dropWhile p).head? = some c) : p c = false := by
  induction l with
  | nil => cases hc
  | cons a rest ih =>
    by_cases ha : p a
    · rw [List.dropWhile_cons_of_pos ha] at hc
      exact ih hc
    · rw [List.dropWhile_cons_of_neg ha] at hc
      simp only [List.head?_cons, Option.some.injEq] at hc
      subst hc
      simpa using ha

theorem chain'_dropWhile (R : Char → Char → Prop) (p : Char → Bool) (l : List Char)
    (h : List.Chain' R l) : List.Chain' R (l.dropWhile p) := by
  induction l with
  | nil => simpa using h
  | cons a rest ih =>
    by_cases ha : p a
    · rw [List.dropWhile_cons_of_pos ha]
      exact ih ((List.chain'_cons'.mp h).2)
    · rw [List.dropWhile_cons_of_neg ha]
      exact h

theorem chain'_reverse_of_symm (R : Char → Char → Prop)
    (hsymm : ∀ a b, R a b → R b a) (l : List Char) (h : List.Chain' R l) :
    List.Chain' R l.reverse := by
  rw [List.chain'_reverse]
  exact List.Chain'.imp (fun a b hab => hsymm a b hab) h

theorem stripChars_mem (p : Char → Bool) (l : List Char) (c : Char)
    (hc : c ∈ stripChars p l) : c ∈ l := by
  unfold stripChars at hc
  rw [List.mem_reverse] at hc
  have h1 := mem_of_dropWhile p _ c hc
  rw [List.mem_reverse] at h1
  exact mem_of_dropWhile p l c h1

theorem stripChars_chain (R : Char → Char → Prop) (hsymm : ∀ a b, R a b → R b a)
    (p : Char → Bool) (l : List Char) (h : List.Chain' R l) :
    List.Chain' R (stripChars p l) := by
  unfold stripChars
  exact chain'_reverse_of_symm R hsymm _
    (chain'_dropWhile R p _ (chain'_reverse_of_symm R hsymm _ (chain'_dropWhile R p l h)))

theorem stripChars_getLast (p : Char → Bool) (l : List Char) (c : Char)
    (hc : (stripChars p l).getLast? = some c) : p c = false := by
  unfold stripChars at hc
  rw [List.getLast?_reverse] at hc
  exact dropWhile_head_false p _ c hc

theorem stripChars_head (p : Char → Bool) (l : List Char) (c : Char)
    (hc : (stripChars p l).head? = some c) : p c = false := by
  unfold stripChars at hc
  rw [List.head?_reverse] at hc
  obtain ⟨s, hs⟩ := exists_append_dropWhile p ((l.dropWhile p).reverse)
  rcases hm : (l.dropWhile p).reverse.dropWhile p with _ | ⟨x, xs⟩
  · rw [hm] at hc
    cases hc
  · rw [hm] at hc hs
    have hlast : ((l.dropWhile p).reverse).getLast? = some c := by
      rw [← hs, List.getLast?_append, hc]
      rfl
    rw [List.getLast?_reverse] at hlast
    exact dropWhile_head_false p l c hlast

theorem chain_and (P Q : Char → Char → Prop) (l : List Char)
    (hp : List.Chain' P l) (hq : List.Chain' Q l) :
    List.Chain' (fun a b => P a b ∧ Q a b) l := by
  induction l with
  | nil => simp
  | cons a rest ih =>
    rw [List.chain'_cons'] at hp hq ⊢
    exact ⟨fun y hy => ⟨hp.1 y hy, hq.1 y hy⟩, ih hp.2 hq.2⟩

theorem pathPipeline_good (t s4 : List Char)
    (hs : s4 = stripChars isSep
      (subRuns (fun c => !(c == '-')) '-'
        (subRuns (fun c => !(c == '_')) '_'
          (subRuns pathSegAllowed '_' t false) false) false)) :
    (∀ c ∈ s4, pathSegAllowed c = true) ∧
    segChainOk s4 ∧
    (∀ c, s4.head? = some c → isSep c = false) ∧
    (∀ c, s4.getLast? = some c → isSep c = false) := by
  subst hs
  refine ⟨?_, ?_, ?_, ?_⟩
  · intro c hc
    have h3 := stripChars_mem _ _ _ hc
    rcases subRuns_mem _ _ _ _ _ h3 with h2 | rfl
    · rcases subRuns_mem _ _ _ _ _ h2 with h1 | rfl
      · rcases subRuns_mem_bool _ _ _ _ _ h1 with hk | rfl
        · exact hk
        · decide
      · decide
    · decide
  · apply stripChars_chain
    · rintro a b ⟨h1, h2⟩
      exact ⟨fun hab => h1 ⟨hab.2, hab.1⟩, fun hab => h2 ⟨hab.2, hab.1⟩⟩
    · apply chain_and
      · apply subRuns_chain_preserve
        · rintro x ⟨hx, _⟩
          exact absurd hx (by decide)
        · rintro x ⟨_, hx⟩
          exact absurd hx (by decide)
        · exact subRuns_chain_no_repl _ _ (fun c hc => by simpa using hc) _ _
      · exact subRuns_chain_no_repl _ _ (fun c hc => by simpa using hc) _ _
  · intro c hc
    exact stripChars_head isSep _ c hc
  · intro c hc
    exact stripChars_getLast isSep _ c hc

theorem dtPipeline_good (t s4 : List Char)
    (hs : s4 = stripChars isSep
      (subRuns (fun c => !(c == '_')) '_'
        (subRuns (fun c => !(c == '-')) '-'
          (subRuns pathSegAllowed '-' t false) false) false)) :
    (∀ c ∈ s4, pathSegAllowed c = true) ∧
    segChainOk s4 ∧
    (∀ c, s4.head? = some c → isSep c = false) ∧
    (∀ c, s4.getLast? = some c → isSep c = false) := by
  subst hs
  refine ⟨?_, ?_, ?_, ?_⟩
  · intro c hc
    have h3 := stripChars_mem _ _ _ hc
    rcases subRuns_mem _ _ _ _ _ h3 with h2 | rfl
    · rcases subRuns_mem _ _ _ _ _ h2 with h1 | rfl
      · rcases subRuns_mem_bool _ _ _ _ _ h1 with hk | rfl
        · exact hk
        · decide
      · decide
    · decide
  · apply stripChars_chain
    · rintro a b ⟨h1, h2⟩
      exact ⟨fun hab => h1 ⟨hab.2, hab.1⟩, fun hab => h2 ⟨hab.2, hab.1⟩⟩
    · apply chain_and
      · exact subRuns_chain_no_repl _ _ (fun c hc => by simpa using hc) _ _
      · apply subRuns_chain_preserve
        · rintro x ⟨hx, _⟩
          exact absurd hx (by decide)
        · rintro x ⟨_, hx⟩
          exact absurd hx (by decide)
        · exact subRuns_chain_no_repl _ _ (fun c hc => by simpa using hc) _ _
  · intro c hc
    exact stripChars_head isSep _ c hc
  · intro c hc
    exact stripChars_getLast isSep _ c hc

theorem sanitizePathSegment_good (raw fieldName out : String)
    (h : sanitizePathSegment raw fieldName = Except.ok out) : goodSegment out := by
  simp only [sanitizePathSegment] at h
  split at h
  · exact absurd h (by simp)
  · split at h
    · exact absurd h (by simp)
    · rename_i hne
      injection h with h2
      subst h2
      obtain ⟨hmem, hchain, hh, hl⟩ := pathPipeline_good (pyStrip raw.data) _ rfl
      exact ⟨hne, hmem, hchain, hh, hl⟩

theorem sanitizeClientDatetime_good (raw out : String)
    (h : sanitizeClientDatetime raw = Except.ok out) : goodSegment out := by
  simp only [sanitizeClientDatetime] at h
  split at h
  · exact absurd h (by simp)
  · split at h
    · exact absurd h (by simp)
    · rename_i hne
      injection h with h2
      subst h2
      obtain ⟨hmem, hchain, hh, hl⟩ :=
        dtPipeline_good ((pyStrip raw.data).map dtReplace) _ rfl
      exact ⟨hne, hmem, hchain, hh, hl⟩

theorem goodSegment_no_escape (s : String) (h : goodSegment s) :
    '/' ∉ s.data ∧ '\\' ∉ s.data ∧ s ≠ "." ∧ s ≠ ".." := by
  obtain ⟨hne, hmem, _, _, _⟩ := h
  refine ⟨?_, ?_, ?_, ?_⟩
  · intro hc
    exact absurd (hmem _ hc) (by decide)
  · intro hc
    exact absurd (hmem _ hc) (by decide)
  · intro hs
    subst hs
    exact absurd (hmem '.' (by decide)) (by decide)
  · intro hs
    subst hs
    exact absurd (hmem '.' (by decide)) (by decide)

/-- C7: every input to path-segment sanitization is either rejected (in
particular any input that is empty or whitespace-only, and any input whose
cleaned form is empty) or mapped to a non-empty string of allow-listed
characters with separator runs collapsed and leading/trailing separators
trimmed; such a result contains no path separator and is neither the
current- nor the parent-directory name, for both `sanitize_path_segment`
and `sanitize_client_datetime`. -/
theorem C7_sanitization_single_component :
    (∀ raw fieldName, pyStrip raw.data = [] →
        Except.isOk (sanitizePathSegment raw fieldName) = false) ∧
    (∀ raw fieldName out, sanitizePathSegment raw fieldName = Except.ok out →
        goodSegment out ∧
        '/' ∉ out.data ∧ '\\' ∉ out.data ∧ out ≠ "." ∧ out ≠ "..") ∧
    (∀ raw, pyStrip raw.data = [] →
        Except.isOk (sanitizeClientDatetime raw) = false) ∧
    (∀ raw out, sanitizeClientDatetime raw = Except.ok out →
        goodSegment out ∧
        '/' ∉ out.data ∧ '\\' ∉ out.data ∧ out ≠ "." ∧ out ≠ "..") := by
  refine ⟨?_, ?_, ?_, ?_⟩
  · intro raw fieldName ht
    simp only [sanitizePathSegment]
    rw [if_pos ht]
    rfl
  · intro raw fieldName out h
    have hg := sanitizePathSegment_good raw fieldName out h
    obtain ⟨h1, h2, h3, h4⟩ := goodSegment_no_escape out hg
    exact ⟨hg, h1, h2, h3, h4⟩
  · intro raw ht
    simp only [sanitizeClientDatetime]
    rw [if_pos ht]
    rfl
  · intro raw out h
    have hg := sanitizeClientDatetime_good raw out h
    obtain ⟨h1, h2, h3, h4⟩ := goodSegment_no_escape out hg
    exact ⟨hg, h1, h2, h3, h4⟩

theorem C7_sanitization_single_component_witness :
    goodSegment ("my_exp") ∧ goodSegment ("2024-01-02T10-30-00") :=
  ⟨(C7_sanitization_single_component.2.1 ("my exp!") ("experiment_name") ("my_exp") rfl).1,
   (C7_sanitization_single_component.2.2.2 ("2024-01-02T10:30:00") ("2024-01-02T10-30-00") rfl).1⟩

end PyBeep
